import Mathlib

/-!
The module loader of apr-iconv (`lib/iconv_module.c`)

A shallow embedding of the module loader of apr-iconv: path resolution
(`iconv_getpathname`, `iconv_getpath`), the dynamic-loading primitive
(`iconv_dlopen`), the recursive loader (`iconv_mod_load`), the recursive
teardown (`iconv_mod_unload`) and the default event handler
(`iconv_mod_noevent`).

C strings are lists of characters, pointers are natural numbers with `0` for
`NULL`.  Everything the C code obtains from the platform (the file system, the
environment, `dlopen`, `dlsym`, `dlclose`, `malloc`, `strdup`) is a field of an
oracle structure; the external calls made by the loader (`dlopen`, `dlclose`,
`malloc` and `free` of instances, and the module callbacks) are recorded, in
order, in a trace of events.  `iconv_mod_load` is recursive and need not
terminate (a module may depend on itself): it is defined with a bound on the
depth of the recursion, and a call that runs into the bound yields no result
but the state it reached.
-/

namespace IconvModule

/-! ## Platform constants and the constants of `iconv.h` -/

/-- Error number `EINVAL` of `<errno.h>`. -/
def EINVAL : Int := 22

/-- Error number `ENOMEM` of `<errno.h>`. -/
def ENOMEM : Int := 12

/-- Error number `EFTYPE` of `<errno.h>` (BSD). -/
def EFTYPE : Int := 79

/-- Pointers: a natural number, `0` is `NULL`. -/
abbrev Ptr := Nat

/-- Compile-time constants that the code takes from headers that are not part
of `iconv_module.c`: `PATH_MAX` of `<limits.h>`, and `ICONV_DEFAULT_PATH`,
`ICMOD_ANY`, `ICMODF_LOADED`, `ICMODEV_LOAD`, `ICMODEV_UNLOAD`,
`ICMODEV_DYNDEPS` of `iconv.h`.  They are parameters of every definition. -/
structure Consts where
  PATH_MAX : Nat
  ICONV_DEFAULT_PATH : List Char
  ICMOD_ANY : Int
  ICMODF_LOADED : Nat
  ICMODEV_LOAD : Int
  ICMODEV_UNLOAD : Int
  ICMODEV_DYNDEPS : Int

/-! ## Path resolver -/

/-- What the process environment and the file system answer during one call of
`iconv_getpath`: `issetugid()`, `getenv("ICONV_PATH")` (`none` is `NULL`),
whether `strdup` succeeds, and whether `stat` succeeds on a path and reports a
regular file. -/
structure Env where
  issetugid : Bool
  ICONV_PATH : Option (List Char)
  strdup_ok : Bool
  is_regular : List Char → Bool

/-- The text left in the buffer by `snprintf(buffer, size, ...)`: at most
`size - 1` characters of the formatted text. -/
def snprintf (size : Nat) (text : List Char) : List Char :=
  text.take (size - 1)

/-- `iconv_getpathname(buffer, dir, name)`: the return code and the text
written to `buffer`. -/
def iconv_getpathname (c : Consts) (e : Env) (dir name : List Char) : Int × List Char :=
  let buffer := snprintf c.PATH_MAX (dir ++ '/' :: name)
  (if e.is_regular buffer then 0 else EINVAL, buffer)

/-- Line 62-63 of `iconv_getpath`:
`if (tolower(name[0]) == 'x' && name[1] == '-') name += 2;`. -/
def skip_variant : List Char → List Char
  | c0 :: c1 :: rest => if c0.toLower = 'x' ∧ c1 = '-' then rest else c0 :: c1 :: rest
  | name => name

/-- Lines 65-67 of `iconv_getpath`:
`ptr = buffer + strlen(buffer) - 4 - strlen(name); while (* ++ptr) *ptr = tolower(*ptr);`.
The first character read is at index `strlen(buffer) - 4 - strlen(name) + 1`;
when that index is negative the loop reads before the start of `buffer`, which
has no defined behaviour (`none`). -/
def lower_tail (buffer name : List Char) : Option (List Char) :=
  let first : Int := (buffer.length : Int) - 4 - (name.length : Int) + 1
  if first < 0 then none
  else some (buffer.take first.toNat ++ (buffer.drop first.toNat).map Char.toLower)

/-- Lines 62-67 of `iconv_getpath`: the file name composed in the local
`buffer` for a module name (`none`: no defined behaviour). -/
def compose_file (c : Consts) (name : List Char) : Option (List Char) :=
  let name := skip_variant name
  lower_tail (snprintf c.PATH_MAX (name ++ ".so".toList)) name

/-- The tokens returned by the successive calls `strtok(p, ":")`,
`strtok(NULL, ":")`, ...: the maximal non-empty runs of characters other than
the delimiter. -/
def strtok_all (delim : Char) (p : List Char) : List (List Char) :=
  (p.splitOn delim).filter (fun t => !t.isEmpty)

/-- The `for` loop of lines 75-80 over the tokens of `ICONV_PATH`: whether a
directory matched, and the final content of `buf`. -/
def getpath_loop (c : Consts) (e : Env) (file : List Char) :
    List (List Char) → List Char → Bool × List Char
  | [], buf => (false, buf)
  | dir :: dirs, _ =>
    let r := iconv_getpathname c e dir file
    if r.1 = 0 then (true, r.2) else getpath_loop c e file dirs r.2

/-- `iconv_getpath(buf, name)`: the return code and the final content of `buf`
(whose initial content is the argument `buf`); `none` when the lower-casing
loop has no defined behaviour. -/
def iconv_getpath (c : Consts) (e : Env) (buf name : List Char) : Option (Int × List Char) :=
  match compose_file c name with
  | none => none
  | some buffer =>
    if !e.issetugid then
      match e.ICONV_PATH with
      | some ptr =>
        if !e.strdup_ok then some (ENOMEM, buf)
        else
          match getpath_loop c e buffer (strtok_all ':' ptr) buf with
          | (true, buf1) => some (0, buf1)
          | (false, _) => some (iconv_getpathname c e c.ICONV_DEFAULT_PATH buffer)
      | none => some (iconv_getpathname c e c.ICONV_DEFAULT_PATH buffer)
    else some (iconv_getpathname c e c.ICONV_DEFAULT_PATH buffer)

/-- The normalisation of a module name as the specification words it: strip a
leading two-character variant marker `x-` / `X-` if present, then lower-case. -/
def normalise (name : List Char) : List Char :=
  (skip_variant name).map Char.toLower

/-! ## Data model of `iconv.h` -/

/-- The external calls made by `iconv_dlopen`, `iconv_mod_load` and
`iconv_mod_unload`, with their results, in the order in which they happen (the
calls made inside `iconv_getpath` are not recorded; `malloc` and `free` are
those of module instances).  `mod_load`, `mod_unload` and `mod_dyndeps` are the
invocations of `ICONV_MOD_LOAD`, `ICONV_MOD_UNLOAD` and `ICONV_MOD_DYNDEPS`
on the instance stored at `addr`; `mod_load` also records the addresses of the
instances found in `im_deplist` when the callback runs, and `mod_dyndeps` is
recorded when the callback returns. -/
inductive Event where
  | dlopen (name : List Char) (handle : Ptr)
  | dlclose (handle : Ptr) (ret : Int)
  | malloc (addr : Ptr)
  | free (addr : Ptr)
  | mod_load (addr : Ptr) (deps : List Ptr) (ret : Int)
  | mod_unload (addr : Ptr) (ret : Int)
  | mod_dyndeps (addr : Ptr) (ret : Int)
  deriving DecidableEq

/-- One entry of the static dependency array `imd_depend` of a descriptor
(`struct iconv_module_depend`); the array ends at the entry whose `md_name` is
`NULL`, which a list leaves implicit. -/
structure iconv_module_depend where
  md_name : List Char
  md_type : Int
  md_data : Ptr

/-- Modelled from the spec: the behaviour of a module-supplied "compute dynamic
dependencies" callback, which lives in the module files.  The callback may call
`iconv_mod_load` for further modules; an instance loaded this way is pushed on
the front of `im_deplist` of the instance the callback works on (the ownership
rules of the static dependencies), and the callback goes on according to the
code the load returned, until it returns itself. -/
inductive DynDeps where
  | done (ret : Int)
  | load (name : List Char) (type : Int) (args : Ptr) (next : Int → DynDeps)

/-- Modelled from the spec: the module descriptor exported by a module file
(`struct iconv_module_desc` of `iconv.h`): the declared type, the static
dependency array (`none` is `NULL`) and three callback slots, each of which
may be empty.  A callback sees `im_args` of its instance and everything that
happened so far. -/
structure iconv_module_desc where
  imd_type : Int
  imd_depend : Option (List iconv_module_depend)
  imd_load : Option (Ptr → List Event → Int)
  imd_unload : Option (Ptr → List Event → Int)
  imd_dyndeps : Option (Ptr → List Event → DynDeps)

/-- A module instance (`struct iconv_module`) at address `addr`.  The chain
`im_deplist`, `im_deplist->im_next`, ... is the list `im_deplist`. -/
inductive iconv_module where
  | mk (addr : Ptr) (im_flags : Nat) (im_handle : Ptr) (im_desc : iconv_module_desc)
      (im_deplist : List iconv_module) (im_depcnt : Nat) (im_depdata : Ptr) (im_args : Ptr)

namespace iconv_module

/-- Address of the instance. -/
def addr : iconv_module → Ptr
  | mk a _ _ _ _ _ _ _ => a

/-- Field `im_flags`. -/
def im_flags : iconv_module → Nat
  | mk _ f _ _ _ _ _ _ => f

/-- Field `im_handle`. -/
def im_handle : iconv_module → Ptr
  | mk _ _ h _ _ _ _ _ => h

/-- Field `im_desc`. -/
def im_desc : iconv_module → iconv_module_desc
  | mk _ _ _ d _ _ _ _ => d

/-- Field `im_deplist`, with the `im_next` chain. -/
def im_deplist : iconv_module → List iconv_module
  | mk _ _ _ _ l _ _ _ => l

/-- Field `im_depcnt`. -/
def im_depcnt : iconv_module → Nat
  | mk _ _ _ _ _ n _ _ => n

/-- Field `im_depdata`. -/
def im_depdata : iconv_module → Ptr
  | mk _ _ _ _ _ _ d _ => d

/-- Field `im_args`. -/
def im_args : iconv_module → Ptr
  | mk _ _ _ _ _ _ _ a => a

/-- Assignment `depmod->im_depdata = data`. -/
def set_depdata : iconv_module → Ptr → iconv_module
  | mk a f h d l n _ g, data => mk a f h d l n data g

/-- Assignments `depmod->im_next = mod->im_deplist; mod->im_deplist = depmod`. -/
def attach : iconv_module → iconv_module → iconv_module
  | mk a f h d l n x g, depmod => mk a f h d (depmod :: l) n x g

/-- Assignment `mod->im_depcnt = n`. -/
def set_depcnt : iconv_module → Nat → iconv_module
  | mk a f h d l _ x g, n => mk a f h d l n x g

/-- Assignment `mod->im_flags = flags`. -/
def set_flags : iconv_module → Nat → iconv_module
  | mk a _ h d l n x g, flags => mk a flags h d l n x g

end iconv_module

/-! ## Program state and platform oracles -/

/-- The state threaded through the loader: the trace of external calls so far
and the number of instances allocated so far.  The `n`-th successful `malloc`
returns the address `n`: an address identifies one instance for the whole run
and is not handed out again after `free`. -/
structure State where
  trace : List Event
  brk : Nat
  deriving DecidableEq

/-- Append one event to the trace. -/
def State.emit (s : State) (ev : Event) : State :=
  { s with trace := s.trace ++ [ev] }

/-- The platform, as a function of what happened so far: the environment and
file system seen by `iconv_getpath`, the result of `dlopen(name, RTLD_LAZY)`
(`0` is `NULL`), of `dlsym(handle, symbol)` (`none` is `NULL`), of
`dlclose(handle)`, and whether `malloc` succeeds. -/
structure World where
  env : List Event → Env
  dlopen : List Char → List Event → Ptr
  dlsym : Ptr → List Char → Option iconv_module_desc
  dlclose : Ptr → List Event → Int
  malloc_ok : List Event → Bool

/-- The call `dlclose(handle)`: its result, recorded in the trace. -/
def dlclose (w : World) (handle : Ptr) (s : State) : Int × State :=
  let r := w.dlclose handle s.trace
  (r, s.emit (.dlclose handle r))

/-! ## Native loader -/

/-- `iconv_dlopen(name, symbol, &handle, &data)`: `.error` carries the non-zero
return code, `.ok` the handle and the descriptor stored through `hpp`, `dpp`. -/
def iconv_dlopen (w : World) (name symbol : List Char) (s : State) :
    Except Int (Ptr × iconv_module_desc) × State :=
  let handle := w.dlopen name s.trace
  let s1 := s.emit (.dlopen name handle)
  if handle = 0 then (.error EINVAL, s1)
  else
    match w.dlsym handle symbol with
    | some data => (.ok (handle, data), s1)
    | none => (.error EINVAL, (dlclose w handle s1).2)

/-! ## Default event handler and the callback macros -/

/-- `iconv_mod_noevent(mod, event)`: the return code and the instance as the
call leaves it. -/
def iconv_mod_noevent (c : Consts) (mod : iconv_module) (event : Int) : Int × iconv_module :=
  if event = c.ICMODEV_LOAD ∨ event = c.ICMODEV_UNLOAD ∨ event = c.ICMODEV_DYNDEPS then (0, mod)
  else (EINVAL, mod)

/-- Modelled from the spec: the macro `ICONV_MOD_LOAD(mod)` of `iconv.h`, the
load callback of the module, or `iconv_mod_noevent` when the slot is empty. -/
def ICONV_MOD_LOAD (c : Consts) (mod : iconv_module) (s : State) : Int × State :=
  let ret := match mod.im_desc.imd_load with
    | some f => f mod.im_args s.trace
    | none => (iconv_mod_noevent c mod c.ICMODEV_LOAD).1
  (ret, s.emit (.mod_load mod.addr (mod.im_deplist.map iconv_module.addr) ret))

/-- Modelled from the spec: the macro `ICONV_MOD_UNLOAD(mod)` of `iconv.h`, the
unload callback of the module, or `iconv_mod_noevent` when the slot is empty. -/
def ICONV_MOD_UNLOAD (c : Consts) (mod : iconv_module) (s : State) : Int × State :=
  let ret := match mod.im_desc.imd_unload with
    | some f => f mod.im_args s.trace
    | none => (iconv_mod_noevent c mod c.ICMODEV_UNLOAD).1
  (ret, s.emit (.mod_unload mod.addr ret))

/-! ## Unload -/

mutual
/-- Lines 176-188 of `iconv_mod_unload`, for a non-null `mod`. -/
def iconv_mod_unload_nonnull (c : Consts) (w : World) : iconv_module → State → Int × State
  | .mk addr im_flags im_handle im_desc im_deplist im_depcnt im_depdata im_args, s =>
    let mod := iconv_module.mk addr im_flags im_handle im_desc im_deplist im_depcnt
      im_depdata im_args
    let r1 := if im_flags &&& c.ICMODF_LOADED ≠ 0 then ICONV_MOD_UNLOAD c mod s else (0, s)
    let s2 := iconv_mod_unload_deplist c w im_deplist r1.2
    let r3 := if im_handle ≠ 0 then
        let r := dlclose w im_handle s2
        (if r.1 ≠ 0 then EINVAL else r1.1, r.2)
      else (r1.1, s2)
    (r3.1, r3.2.emit (.free addr))
/-- The `while (deplist)` loop of lines 179-183. -/
def iconv_mod_unload_deplist (c : Consts) (w : World) : List iconv_module → State → State
  | [], s => s
  | deplist :: tmp, s =>
    iconv_mod_unload_deplist c w tmp (iconv_mod_unload_nonnull c w deplist s).2
end

/-- `iconv_mod_unload(mod)`; `none` is the null pointer. -/
def iconv_mod_unload (c : Consts) (w : World) : Option iconv_module → State → Int × State
  | none, s => (-1, s)
  | some mod, s => iconv_mod_unload_nonnull c w mod s

/-! ## Load -/

/-- The type of `iconv_mod_load` at a given bound on the recursion depth: name,
type, arguments and state to the result and the state reached.  The result is
`some (.error code)` for a non-zero return code, `some (.ok mod)` when 0 is
returned and `mod` is stored through `modpp`, and `none` when the call has not
returned: the bound was reached (the state is then the state at that point),
or `iconv_getpath` has no defined behaviour. -/
abbrev Loader := List Char → Int → Ptr → State → Option (Except Int iconv_module) × State

/-- The `while (depend->md_name)` loop of lines 138-147: the value of `error`
when the loop is left (non-zero: through `goto bad`) and the instance, and the
state; `none` when a recursive call has not returned. -/
def load_depends (loader : Loader) :
    List iconv_module_depend → iconv_module → State → Option (Int × iconv_module) × State
  | [], mod, s => (some (0, mod), s)
  | depend :: rest, mod, s =>
    match loader depend.md_name depend.md_type 0 s with
    | (none, s1) => (none, s1)
    | (some (.error error), s1) => (some (error, mod), s1)
    | (some (.ok depmod), s1) =>
      load_depends loader rest (mod.attach (depmod.set_depdata depend.md_data)) s1

/-- Modelled from the spec: a run of a module-supplied dynamic-dependency
callback on `mod`: the code it returns and the instance, and the state; `none`
when a recursive call has not returned. -/
def run_dyndeps (loader : Loader) :
    DynDeps → iconv_module → State → Option (Int × iconv_module) × State
  | .done ret, mod, s => (some (ret, mod), s)
  | .load name type args next, mod, s =>
    match loader name type args s with
    | (none, s1) => (none, s1)
    | (some (.error error), s1) => run_dyndeps loader (next error) mod s1
    | (some (.ok depmod), s1) => run_dyndeps loader (next 0) (mod.attach depmod) s1

/-- Modelled from the spec: the macro `ICONV_MOD_DYNDEPS(mod)` of `iconv.h`,
the dynamic-dependency callback of the module, or `iconv_mod_noevent` when the
slot is empty; the return of the callback is recorded in the trace. -/
def ICONV_MOD_DYNDEPS (c : Consts) (loader : Loader) (mod : iconv_module) (s : State) :
    Option (Int × iconv_module) × State :=
  match mod.im_desc.imd_dyndeps with
  | none =>
    let r := iconv_mod_noevent c mod c.ICMODEV_DYNDEPS
    (some (r.1, r.2), s.emit (.mod_dyndeps mod.addr r.1))
  | some f =>
    match run_dyndeps loader (f mod.im_args s.trace) mod s with
    | (none, s1) => (none, s1)
    | (some (ret, mod1), s1) => (some (ret, mod1), s1.emit (.mod_dyndeps mod.addr ret))

/-- The `while (depmod)` loop of lines 153-156: `im_depcnt` after the walk. -/
def count_deplist : List iconv_module → Nat → Nat
  | [], im_depcnt => im_depcnt
  | _ :: im_next, im_depcnt => count_deplist im_next (im_depcnt + 1)

/-- The label `bad:` of `iconv_mod_load`: unload `mod` and return `error`. -/
def load_bad (c : Consts) (w : World) (mod : iconv_module) (error : Int) (s : State) :
    Option (Except Int iconv_module) × State :=
  (some (.error error), (iconv_mod_unload c w (some mod) s).2)

/-- Lines 136-148 of `iconv_mod_load`: `depend = mdesc->imd_depend;` and the
loop over it when it is not `NULL` (`error` is still 0 otherwise). -/
def load_static (loader : Loader) (mod : iconv_module) (s : State) :
    Option (Int × iconv_module) × State :=
  match mod.im_desc.imd_depend with
  | some depend => load_depends loader depend mod s
  | none => (some (0, mod), s)

/-- Lines 136-165 of `iconv_mod_load`, after the instance `mod` has been
allocated and initialised. -/
def load_instance (c : Consts) (w : World) (loader : Loader) (mod : iconv_module) (s : State) :
    Option (Except Int iconv_module) × State :=
  match load_static loader mod s with
  | (none, s1) => (none, s1)
  | (some (error, mod1), s1) =>
    if error ≠ 0 then load_bad c w mod1 error s1
    else
      match ICONV_MOD_DYNDEPS c loader mod1 s1 with
      | (none, s2) => (none, s2)
      | (some (error, mod2), s2) =>
        if error ≠ 0 then load_bad c w mod2 error s2
        else
          let mod3 := mod2.set_depcnt (count_deplist mod2.im_deplist mod2.im_depcnt)
          let r := ICONV_MOD_LOAD c mod3 s2
          if r.1 ≠ 0 then load_bad c w mod3 r.1 r.2
          else (some (.ok (mod3.set_flags (mod3.im_flags ||| c.ICMODF_LOADED))), r.2)

/-- Lines 118-135 of `iconv_mod_load`: resolve the path, open the file, check
the type, allocate and initialise the instance.  `.error` carries the code
returned at lines 119, 122, 125 or 130, `.ok` the instance as line 135 leaves
it (`malloc` followed by `bzero`, then `im_handle`, `im_desc`, `im_args`);
`none` when `iconv_getpath` has no defined behaviour.  The local `buffer`
starts out empty. -/
def load_alloc (c : Consts) (w : World) (modname : List Char) (modtype : Int) (args : Ptr)
    (s : State) : Option (Except Int iconv_module) × State :=
  match iconv_getpath c (w.env s.trace) [] modname with
  | none => (none, s)
  | some (rc, buffer) =>
    if rc ≠ 0 then (some (.error EINVAL), s)
    else
      match iconv_dlopen w buffer "iconv_module".toList s with
      | (.error error, s1) => (some (.error error), s1)
      | (.ok (handle, mdesc), s1) =>
        if modtype ≠ c.ICMOD_ANY ∧ mdesc.imd_type ≠ modtype then
          (some (.error EFTYPE), (dlclose w handle s1).2)
        else if !w.malloc_ok s1.trace then
          (some (.error ENOMEM), (dlclose w handle (s1.emit (.malloc 0))).2)
        else
          let addr := s1.brk + 1
          (some (.ok (iconv_module.mk addr 0 handle mdesc [] 0 0 args)),
            { trace := s1.trace ++ [.malloc addr], brk := addr })

/-- `iconv_mod_load(modname, modtype, args, &mod)`, with a bound on the depth
of the recursion: the call has not returned (`none`) when the bound is
reached. -/
def iconv_mod_load (c : Consts) (w : World) : Nat → Loader
  | 0, _, _, _, s => (none, s)
  | fuel + 1, modname, modtype, args, s =>
    match load_alloc c w modname modtype args s with
    | (none, s1) => (none, s1)
    | (some (.error error), s1) => (some (.error error), s1)
    | (some (.ok mod), s2) => load_instance c w (iconv_mod_load c w fuel) mod s2

/-! ## Observations on traces and on instance trees -/

/-- The events that a step from state `s` to state `s1` added to the trace. -/
def new_events (s s1 : State) : List Event :=
  s1.trace.drop s.trace.length

/-- Number of calls of `dlopen` in a trace that returned the handle `h`. -/
def opens (h : Ptr) (evs : List Event) : Nat :=
  evs.countP (fun ev => match ev with
    | .dlopen _ h1 => decide (h1 = h)
    | _ => false)

/-- Number of calls `dlclose(h)` in a trace. -/
def closes (h : Ptr) (evs : List Event) : Nat :=
  evs.countP (fun ev => match ev with
    | .dlclose h1 _ => decide (h1 = h)
    | _ => false)

/-- Number of invocations of `ICONV_MOD_UNLOAD` on the instance at `a`. -/
def unload_calls (a : Ptr) (evs : List Event) : Nat :=
  evs.countP (fun ev => match ev with
    | .mod_unload a1 _ => decide (a1 = a)
    | _ => false)

/-- Number of invocations of `ICONV_MOD_LOAD` on the instance at `a`. -/
def load_calls (a : Ptr) (evs : List Event) : Nat :=
  evs.countP (fun ev => match ev with
    | .mod_load a1 _ _ => decide (a1 = a)
    | _ => false)

/-- Number of calls `free(a)` in a trace. -/
def frees (a : Ptr) (evs : List Event) : Nat :=
  evs.countP (fun ev => match ev with
    | .free a1 => decide (a1 = a)
    | _ => false)

/-- The test `mod->im_flags & ICMODF_LOADED` of `iconv_mod_unload`. -/
def is_loaded (c : Consts) (mod : iconv_module) : Bool :=
  decide (mod.im_flags &&& c.ICMODF_LOADED ≠ 0)

mutual
/-- All instances of the tree below (and including) an instance: the instance,
then the instances of each entry of its `im_deplist`. -/
def instances : iconv_module → List iconv_module
  | .mk addr im_flags im_handle im_desc im_deplist im_depcnt im_depdata im_args =>
    iconv_module.mk addr im_flags im_handle im_desc im_deplist im_depcnt im_depdata im_args ::
      instances_list im_deplist
/-- All instances of the trees below the entries of a dependency list. -/
def instances_list : List iconv_module → List iconv_module
  | [] => []
  | mod :: im_next => instances mod ++ instances_list im_next
end

/-- What the events of an unload of a tree (or of a list of trees) with
instances `nodes` look like. -/
structure UnloadEvents (c : Consts) (nodes : List iconv_module) (evs : List Event) : Prop where
  closes_eq : ∀ h, h ≠ 0 → closes h evs = nodes.countP (fun n => decide (n.im_handle = h))
  closes_null : closes 0 evs = 0
  unloads_eq : ∀ a, unload_calls a evs =
    nodes.countP (fun n => decide (n.addr = a) && is_loaded c n)
  frees_eq : ∀ a, frees a evs = nodes.countP (fun n => decide (n.addr = a))
  opens_eq : ∀ h, opens h evs = 0
  loads_eq : ∀ a, load_calls a evs = 0

/-- The instance `mod` after the instances `newdeps` (latest first) have been
pushed on the front of its `im_deplist`. -/
def iconv_module.push_deps : iconv_module → List iconv_module → iconv_module
  | .mk a f h d l n x g, newdeps => .mk a f h d (newdeps ++ l) n x g

/-- Child before parent: every invocation of a load callback in the trace, on
an instance whose dependency list holds the instances at `deps`, comes after a
successful invocation (result 0) of the load callback of each of them. -/
def ChildBeforeParent (evs : List Event) : Prop :=
  ∀ pre a deps r post, evs = pre ++ Event.mod_load a deps r :: post →
    ∀ d ∈ deps, ∃ deps1, Event.mod_load d deps1 0 ∈ pre

/-- What a stretch of a load, returned or not, from state `s` to state `s1`
adds to the trace: the events `evs`, in which child comes before parent and no
load callback runs on an instance allocated before the stretch began. -/
structure TraceInv (s s1 : State) (evs : List Event) : Prop where
  trace_eq : s1.trace = s.trace ++ evs
  brk_le : s.brk ≤ s1.brk
  ordered : ChildBeforeParent evs
  fresh : ∀ a, a ≤ s.brk → load_calls a evs = 0

/-- Number of instances of a list that hold the handle `h`. -/
def holders (h : Ptr) (nodes : List iconv_module) : Nat :=
  nodes.countP (fun n => decide (n.im_handle = h))

/-- What one call of `iconv_mod_load` from state `s` with result `res` and
final state `s1` adds to the trace. -/
structure LoadInv (s : State) (res : Except Int iconv_module) (s1 : State)
    (evs : List Event) : Prop where
  trace_eq : s1.trace = s.trace ++ evs
  brk_le : s.brk ≤ s1.brk
  ordered : ChildBeforeParent evs
  fresh : ∀ a, a ≤ s.brk → load_calls a evs = 0
  balance : ∀ h, h ≠ 0 → opens h evs = closes h evs +
    (match res with
      | .ok mod => holders h (instances mod)
      | .error _ => 0)
  loaded_event : ∀ mod, res = .ok mod →
    ∃ pre, evs = pre ++ [Event.mod_load mod.addr (mod.im_deplist.map iconv_module.addr) 0]
  error_ne : ∀ e, res = .error e → e ≠ 0

/-- What a loop that loads dependencies and attaches them to `mod` (the static
loop, or a run of the dynamic-dependency callback) adds to the trace, when it
attached the instances `newdeps` (latest first) and left `mod1`. -/
structure DepsInv (s : State) (mod mod1 : iconv_module) (s1 : State)
    (evs : List Event) (newdeps : List iconv_module) : Prop where
  trace_eq : s1.trace = s.trace ++ evs
  brk_le : s.brk ≤ s1.brk
  ordered : ChildBeforeParent evs
  fresh : ∀ a, a ≤ s.brk → load_calls a evs = 0
  mod_eq : mod1 = mod.push_deps newdeps
  balance : ∀ h, h ≠ 0 → opens h evs = closes h evs + holders h (instances_list newdeps)
  loaded_events : ∀ d ∈ newdeps, ∃ deps1, Event.mod_load d.addr deps1 0 ∈ evs

/-- A loader all of whose returning calls satisfy `LoadInv`, and all of whose
calls that have not returned satisfy `TraceInv`. -/
def LoaderOk (loader : Loader) : Prop :=
  ∀ name type args s,
    (∀ res s1, loader name type args s = (some res, s1) → ∃ evs, LoadInv s res s1 evs) ∧
    (∀ s1, loader name type args s = (none, s1) → ∃ evs, TraceInv s s1 evs)

/-- What lines 136-165 of `iconv_mod_load`, run on the fresh instance `mod`
from state `s`, add to the trace. -/
structure InstInv (s : State) (mod : iconv_module) (res : Except Int iconv_module)
    (s1 : State) (evs : List Event) : Prop where
  trace_eq : s1.trace = s.trace ++ evs
  brk_le : s.brk ≤ s1.brk
  ordered : ChildBeforeParent evs
  fresh : ∀ a, a < s.brk → load_calls a evs = 0
  balance : ∀ h, h ≠ 0 → opens h evs + holders h [mod] = closes h evs +
    (match res with
      | .ok m => holders h (instances m)
      | .error _ => 0)
  loaded_event : ∀ m, res = .ok m →
    ∃ pre, evs = pre ++ [Event.mod_load m.addr (m.im_deplist.map iconv_module.addr) 0]
  error_ne : ∀ e, res = .error e → e ≠ 0
  depcnt : ∀ m, res = .ok m → m.im_depcnt = mod.im_depcnt + m.im_deplist.length
  addr_eq : ∀ m, res = .ok m → m.addr = mod.addr

/-- Every call that returns with the loader `l1` returns the same with `l2`. -/
def LoaderLe (l1 l2 : Loader) : Prop :=
  ∀ name type args s r s1, l1 name type args s = (some r, s1) →
    l2 name type args s = (some r, s1)

/-! ## Concrete constants, environments and worlds used to instantiate the theorems -/

/-- The constants as a BSD build has them: `PATH_MAX` is 1024, modules live in
`/usr/local/lib/iconv`. -/
def sample_consts : Consts where
  PATH_MAX := 1024
  ICONV_DEFAULT_PATH := "/usr/local/lib/iconv".toList
  ICMOD_ANY := 0
  ICMODF_LOADED := 1
  ICMODEV_LOAD := 1
  ICMODEV_UNLOAD := 2
  ICMODEV_DYNDEPS := 3

/-- A process without elevated identity, `ICONV_PATH=/opt/a:/opt/b`; the module
file `foo.so` exists in `/opt/b` and in the default directory, `utf8.so` only in
the default directory. -/
def sample_env : Env where
  issetugid := false
  ICONV_PATH := some "/opt/a:/opt/b".toList
  strdup_ok := true
  is_regular := fun path =>
    path = "/opt/b/foo.so".toList ∨ path = "/usr/local/lib/iconv/foo.so".toList ∨
      path = "/usr/local/lib/iconv/utf8.so".toList

/-- The environment `sample_env` when `strdup` cannot allocate. -/
def sample_env_nomem : Env :=
  { sample_env with strdup_ok := false }

/-- The environment `sample_env` in a process that runs with elevated identity. -/
def sample_env_setugid : Env :=
  { sample_env with issetugid := true }

/-- A process with elevated identity and `ICONV_PATH` unset, on the file system
of `sample_env`. -/
def sample_env_setugid_unset : Env :=
  { sample_env with issetugid := true, ICONV_PATH := none, strdup_ok := false }


/-- Descriptor of `utf8.so`: type `0x101`, no dependencies, no callbacks. -/
def desc_utf8 : iconv_module_desc where
  imd_type := 257
  imd_depend := none
  imd_load := none
  imd_unload := none
  imd_dyndeps := none

/-- Descriptor of `latin1.so`: type `0x100`, no dependencies, an unload
callback that reports the error 5. -/
def desc_latin1 : iconv_module_desc where
  imd_type := 256
  imd_depend := none
  imd_load := none
  imd_unload := some (fun _ _ => 5)
  imd_dyndeps := none

/-- Descriptor of `euc.so`: two static dependencies, `utf8` and `X-LATIN1`. -/
def desc_euc : iconv_module_desc where
  imd_type := 257
  imd_depend := some [⟨"utf8".toList, 257, 70⟩, ⟨"X-LATIN1".toList, 256, 71⟩]
  imd_load := none
  imd_unload := none
  imd_dyndeps := none

/-- Descriptor of `tbl.so`: one static dependency, `utf8`, and a
dynamic-dependency callback that loads `latin1` and returns the code of that
load. -/
def desc_tbl : iconv_module_desc where
  imd_type := 257
  imd_depend := some [⟨"utf8".toList, 0, 72⟩]
  imd_load := none
  imd_unload := none
  imd_dyndeps := some (fun _ _ => .load "latin1".toList 256 0 (fun error => .done error))

/-- Descriptor of `bad.so`: no dependencies, a load callback that fails with
the code 99. -/
def desc_bad : iconv_module_desc where
  imd_type := 257
  imd_depend := none
  imd_load := some (fun _ _ => 99)
  imd_unload := none
  imd_dyndeps := none

/-- Descriptor of `broken.so`: three static dependencies, the second of which
is `bad`. -/
def desc_broken : iconv_module_desc where
  imd_type := 257
  imd_depend := some [⟨"utf8".toList, 0, 73⟩, ⟨"bad".toList, 0, 74⟩, ⟨"latin1".toList, 0, 75⟩]
  imd_load := none
  imd_unload := none
  imd_dyndeps := none

/-- Descriptor of `loop.so`: a module that declares itself as its only static
dependency. -/
def desc_loop : iconv_module_desc where
  imd_type := 257
  imd_depend := some [⟨"loop".toList, 0, 76⟩]
  imd_load := none
  imd_unload := none
  imd_dyndeps := none

/-- A platform with the seven module files above in the default directory
(`ICONV_PATH` unset), one handle per file, and `dlclose` and `malloc` that
always succeed. -/
def sample_world : World where
  env := fun _ =>
    { issetugid := false
      ICONV_PATH := none
      strdup_ok := true
      is_regular := fun path =>
        path = "/usr/local/lib/iconv/utf8.so".toList ∨
        path = "/usr/local/lib/iconv/latin1.so".toList ∨
        path = "/usr/local/lib/iconv/euc.so".toList ∨
        path = "/usr/local/lib/iconv/tbl.so".toList ∨
        path = "/usr/local/lib/iconv/bad.so".toList ∨
        path = "/usr/local/lib/iconv/broken.so".toList ∨
        path = "/usr/local/lib/iconv/loop.so".toList }
  dlopen := fun path _ =>
    if path = "/usr/local/lib/iconv/utf8.so".toList then 11
    else if path = "/usr/local/lib/iconv/latin1.so".toList then 12
    else if path = "/usr/local/lib/iconv/euc.so".toList then 13
    else if path = "/usr/local/lib/iconv/tbl.so".toList then 14
    else if path = "/usr/local/lib/iconv/bad.so".toList then 15
    else if path = "/usr/local/lib/iconv/broken.so".toList then 16
    else if path = "/usr/local/lib/iconv/loop.so".toList then 17
    else 0
  dlsym := fun handle symbol =>
    if symbol ≠ "iconv_module".toList then none
    else if handle = 11 then some desc_utf8
    else if handle = 12 then some desc_latin1
    else if handle = 13 then some desc_euc
    else if handle = 14 then some desc_tbl
    else if handle = 15 then some desc_bad
    else if handle = 16 then some desc_broken
    else if handle = 17 then some desc_loop
    else none
  dlclose := fun _ _ => 0
  malloc_ok := fun _ => true

/-- The state before anything happened. -/
def state0 : State := ⟨[], 0⟩

/-- The path of a module file in the default directory of `sample_consts`. -/
def sample_path (file : String) : List Char :=
  "/usr/local/lib/iconv/".toList ++ file.toList

/-- A loaded instance of `utf8.so` at address `addr`. -/
def inst_utf8 (addr depdata : Ptr) : iconv_module :=
  .mk addr 1 11 desc_utf8 [] 0 depdata 0

/-- A loaded instance of `latin1.so` at address `addr`. -/
def inst_latin1 (addr depdata : Ptr) : iconv_module :=
  .mk addr 1 12 desc_latin1 [] 0 depdata 0

/-- The instance that loading `euc` on `sample_world` returns. -/
def euc_instance : iconv_module :=
  .mk 1 1 13 desc_euc [inst_latin1 3 71, inst_utf8 2 70] 2 0 0

/-- The state after loading `euc` on `sample_world` from `state0`. -/
def euc_state : State :=
  ⟨[.dlopen (sample_path "euc.so") 13, .malloc 1,
    .dlopen (sample_path "utf8.so") 11, .malloc 2, .mod_dyndeps 2 0, .mod_load 2 [] 0,
    .dlopen (sample_path "latin1.so") 12, .malloc 3, .mod_dyndeps 3 0, .mod_load 3 [] 0,
    .mod_dyndeps 1 0, .mod_load 1 [3, 2] 0], 3⟩

/-- The instance that loading `tbl` on `sample_world` returns. -/
def tbl_instance : iconv_module :=
  .mk 1 1 14 desc_tbl [inst_latin1 3 0, inst_utf8 2 72] 2 0 0

/-- The state after loading `tbl` on `sample_world` from `state0`. -/
def tbl_state : State :=
  ⟨[.dlopen (sample_path "tbl.so") 14, .malloc 1,
    .dlopen (sample_path "utf8.so") 11, .malloc 2, .mod_dyndeps 2 0, .mod_load 2 [] 0,
    .dlopen (sample_path "latin1.so") 12, .malloc 3, .mod_dyndeps 3 0, .mod_load 3 [] 0,
    .mod_dyndeps 1 0, .mod_load 1 [3, 2] 0], 3⟩

/-- The instance of `broken.so` as lines 118-135 leave it. -/
def broken_fresh : iconv_module :=
  .mk 1 0 16 desc_broken [] 0 0 0

/-- The state when the instance of `broken.so` has been allocated. -/
def broken_state_alloc : State :=
  ⟨[.dlopen (sample_path "broken.so") 16, .malloc 1], 1⟩

/-- The state when the first dependency of `broken.so` has been loaded. -/
def broken_state_first : State :=
  ⟨[.dlopen (sample_path "broken.so") 16, .malloc 1,
    .dlopen (sample_path "utf8.so") 11, .malloc 2, .mod_dyndeps 2 0, .mod_load 2 [] 0], 2⟩

/-- The state when the load of the second dependency of `broken.so` has failed. -/
def broken_state_second : State :=
  ⟨[.dlopen (sample_path "broken.so") 16, .malloc 1,
    .dlopen (sample_path "utf8.so") 11, .malloc 2, .mod_dyndeps 2 0, .mod_load 2 [] 0,
    .dlopen (sample_path "bad.so") 15, .malloc 3, .mod_dyndeps 3 0, .mod_load 3 [] 99,
    .dlclose 15 0, .free 3], 3⟩

/-- The state when the load of `broken` on `sample_world` has returned. -/
def broken_state : State :=
  ⟨[.dlopen (sample_path "broken.so") 16, .malloc 1,
    .dlopen (sample_path "utf8.so") 11, .malloc 2, .mod_dyndeps 2 0, .mod_load 2 [] 0,
    .dlopen (sample_path "bad.so") 15, .malloc 3, .mod_dyndeps 3 0, .mod_load 3 [] 99,
    .dlclose 15 0, .free 3,
    .mod_unload 2 0, .dlclose 11 0, .free 2, .dlclose 16 0, .free 1], 3⟩

/-- The state reached by the load of `loop` on `sample_world` when the
recursion is cut off at depth 2: two instances are allocated and no call has
returned. -/
def loop_state : State :=
  ⟨[.dlopen (sample_path "loop.so") 17, .malloc 1,
    .dlopen (sample_path "loop.so") 17, .malloc 2], 2⟩

/-! ## Path resolver and default event handler: C4, C5, C6, C10 -/

theorem skip_variant_length_le (name : List Char) :
    (skip_variant name).length ≤ name.length := by
  match name with
  | [] => simp [skip_variant]
  | [_] => simp [skip_variant]
  | c0 :: c1 :: rest =>
    simp only [skip_variant]
    split
    · simp only [List.length_cons]; omega
    · exact Nat.le_refl _

theorem lower_tail_eq (size : Nat) (name : List Char) :
    lower_tail (snprintf size (name ++ ".so".toList)) name =
      if name.length + 3 ≤ size - 1 then some ((name ++ ".so".toList).map Char.toLower)
      else none := by
  have hl : (name ++ ".so".toList).length = name.length + 3 := by
    simp [List.length_append]
  unfold lower_tail snprintf
  simp only [List.length_take, hl]
  by_cases h : name.length + 3 ≤ size - 1
  · rw [if_pos h, Nat.min_eq_right h]
    have e : ((name.length + 3 : Nat) : Int) - 4 - (name.length : Int) + 1 = 0 := by
      push_cast; ring
    rw [e]
    simp [List.take_of_length_le (Nat.le_of_eq hl |>.trans h), h]
  · rw [if_neg h]
    have h2 : min (size - 1) (name.length + 3) = size - 1 := by omega
    rw [h2]
    have e : ((size - 1 : Nat) : Int) - 4 - (name.length : Int) + 1 < 0 := by omega
    simp [e]

theorem compose_file_eq (c : Consts) (name : List Char) :
    compose_file c name =
      if (skip_variant name).length + 3 ≤ c.PATH_MAX - 1 then
        some (normalise name ++ ".so".toList)
      else none := by
  unfold compose_file
  simp only [lower_tail_eq, normalise, List.map_append]
  rfl

theorem strtok_all_intercalate (ds : List (List Char))
    (hdirs : ∀ d ∈ ds, d ≠ [] ∧ ':' ∉ d) :
    strtok_all ':' ([':'].intercalate ds) = ds := by
  unfold strtok_all
  by_cases hnil : ds = []
  · subst hnil
    decide
  · rw [List.splitOn_intercalate ds ':' (fun d hd => (hdirs d hd).2) hnil]
    rw [List.filter_eq_self]
    intro d hd
    have := (hdirs d hd).1
    cases d with
    | nil => exact absurd rfl this
    | cons _ _ => rfl

theorem snprintf_fit (size : Nat) (text : List Char) (h : text.length < size) :
    snprintf size text = text := by
  unfold snprintf
  exact List.take_of_length_le (by omega)

theorem getpath_loop_find (c : Consts) (e : Env) (file : List Char) (ds : List (List Char))
    (hfit : ∀ d ∈ ds, d.length + 1 + file.length < c.PATH_MAX) (buf : List Char) :
    (getpath_loop c e file ds buf).1 = (ds.find? (fun d => e.is_regular (d ++ '/' :: file))).isSome ∧
    ∀ d, ds.find? (fun d => e.is_regular (d ++ '/' :: file)) = some d →
      (getpath_loop c e file ds buf).2 = d ++ '/' :: file := by
  induction ds generalizing buf with
  | nil => simp [getpath_loop]
  | cons d ds ih =>
    have hd : snprintf c.PATH_MAX (d ++ '/' :: file) = d ++ '/' :: file := by
      apply snprintf_fit
      have := hfit d (List.mem_cons_self _ _)
      simp only [List.length_append, List.length_cons]
      omega
    have ih2 := ih (fun x hx => hfit x (List.mem_cons_of_mem _ hx))
    simp only [getpath_loop, iconv_getpathname, hd, List.find?_cons]
    by_cases hr : e.is_regular (d ++ '/' :: file) = true
    · simp [hr]
    · have hr2 : e.is_regular (d ++ '/' :: file) = false := by simpa using hr
      simp only [hr2, Bool.false_eq_true, if_false]
      have ne : EINVAL ≠ 0 := by decide
      simp only [ne, if_false]
      exact ih2 _

/-- C5, as amended: in a process without elevated identity, with `ICONV_PATH`
set to the non-empty directories `d1:...:dn` and no path truncated,
`iconv_getpath` returns `ENOMEM` and leaves `buf` alone when `strdup` fails;
when `strdup` succeeds it returns 0 with `di/file` for the first `di` such that
`di/file` is an existing regular file; if there is none it returns 0 with
`ICONV_DEFAULT_PATH/file` when that is an existing regular file, and `EINVAL`
otherwise. -/
theorem getpath_first_match (c : Consts) (e : Env) (buf name : List Char)
    (ds : List (List Char))
    (hugid : e.issetugid = false)
    (henv : e.ICONV_PATH = some ([':'].intercalate ds))
    (hdirs : ∀ d ∈ ds, d ≠ [] ∧ ':' ∉ d)
    (hfit : ∀ d ∈ c.ICONV_DEFAULT_PATH :: ds,
      d.length + 1 + ((skip_variant name).length + 3) < c.PATH_MAX) :
    iconv_getpath c e buf name = some (
      if e.strdup_ok then
        match ds.find? (fun d => e.is_regular (d ++ '/' :: (normalise name ++ ".so".toList))) with
        | some d => (0, d ++ '/' :: (normalise name ++ ".so".toList))
        | none =>
          (if e.is_regular (c.ICONV_DEFAULT_PATH ++ '/' :: (normalise name ++ ".so".toList))
            then 0 else EINVAL,
           c.ICONV_DEFAULT_PATH ++ '/' :: (normalise name ++ ".so".toList))
      else (ENOMEM, buf)) := by
  have hflen : (normalise name ++ ".so".toList).length = (skip_variant name).length + 3 := by
    simp [normalise]
  have hdef := hfit _ (List.mem_cons_self _ _)
  have hcomp : compose_file c name = some (normalise name ++ ".so".toList) := by
    rw [compose_file_eq, if_pos (by omega)]
  have hloop := getpath_loop_find c e (normalise name ++ ".so".toList) ds
    (fun d hd => by rw [hflen]; exact hfit d (List.mem_cons_of_mem _ hd)) buf
  have hsn : snprintf c.PATH_MAX (c.ICONV_DEFAULT_PATH ++ '/' :: (normalise name ++ ".so".toList))
      = c.ICONV_DEFAULT_PATH ++ '/' :: (normalise name ++ ".so".toList) := by
    apply snprintf_fit
    simp only [List.length_append, List.length_cons, hflen]
    omega
  unfold iconv_getpath
  rw [hcomp]
  cases hdup : e.strdup_ok with
  | false =>
    simp only [hugid, henv, Bool.not_false, if_true, Bool.false_eq_true, if_false]
  | true =>
    simp only [hugid, henv, strtok_all_intercalate ds hdirs, Bool.not_false, if_true,
      Bool.not_true, Bool.false_eq_true, if_false]
    cases hf : ds.find?
        (fun d => e.is_regular (d ++ '/' :: (normalise name ++ ".so".toList))) with
    | none =>
      have h1 := hloop.1
      rw [hf] at h1
      simp only [Option.isSome_none] at h1
      rcases hgl : getpath_loop c e (normalise name ++ ".so".toList) ds buf with ⟨b, buf1⟩
      rw [hgl] at h1
      simp only at h1
      subst h1
      simp only [iconv_getpathname, hsn]
    | some d =>
      have h1 := hloop.1
      have h2 := hloop.2 d hf
      rw [hf] at h1
      simp only [Option.isSome_some] at h1
      rcases hgl : getpath_loop c e (normalise name ++ ".so".toList) ds buf with ⟨b, buf1⟩
      rw [hgl] at h1 h2
      simp only at h1 h2
      subst h1
      subst h2
      rfl

/-- Instance of the amended C5: with `ICONV_PATH=/opt/a:/opt/b`, the module
`X-FOO` present in `/opt/b` and in the default directory resolves to
`/opt/b/foo.so`. -/
theorem getpath_first_match_witness :
    iconv_getpath sample_consts sample_env [] "X-FOO".toList =
      some (0, "/opt/b/foo.so".toList) :=
  getpath_first_match sample_consts sample_env [] "X-FOO".toList
    ["/opt/a".toList, "/opt/b".toList] (by decide) (by decide) (by decide) (by decide)

/-- C5, as stated, fails when `strdup` cannot allocate the copy of
`ICONV_PATH`: the process has no elevated identity, `ICONV_PATH` is
`/opt/a:/opt/b`, `/opt/b/foo.so` is a regular file and nothing is truncated,
yet `iconv_getpath` returns `ENOMEM` and writes no path. -/
theorem getpath_strdup_failure :
    sample_env_nomem.issetugid = false ∧
    sample_env_nomem.ICONV_PATH = some "/opt/a:/opt/b".toList ∧
    sample_env_nomem.is_regular "/opt/b/foo.so".toList = true ∧
    iconv_getpath sample_consts sample_env_nomem [] "X-FOO".toList = some (ENOMEM, []) ∧
    iconv_getpath sample_consts sample_env_nomem [] "X-FOO".toList ≠
      some (0, "/opt/b/foo.so".toList) := by
  decide

/-- C6: in a process with elevated identity the result of `iconv_getpath` (code
and path written) does not depend on `ICONV_PATH` (nor on `strdup`): two
environments with the same file system give the same result, which is the
result of the check of `ICONV_DEFAULT_PATH/file` alone. -/
theorem getpath_setugid_ignores_env (c : Consts) (e1 e2 : Env) (buf name : List Char)
    (h1 : e1.issetugid = true) (h2 : e2.issetugid = true)
    (hfs : e1.is_regular = e2.is_regular) :
    iconv_getpath c e1 buf name = iconv_getpath c e2 buf name ∧
    iconv_getpath c e1 buf name =
      (compose_file c name).map (fun file =>
        (if e1.is_regular (snprintf c.PATH_MAX (c.ICONV_DEFAULT_PATH ++ '/' :: file)) then 0
          else EINVAL,
         snprintf c.PATH_MAX (c.ICONV_DEFAULT_PATH ++ '/' :: file))) := by
  unfold iconv_getpath iconv_getpathname
  cases compose_file c name with
  | none => simp
  | some file => simp [h1, h2, hfs]

/-- Instance of C6: with elevated identity, `ICONV_PATH=/opt/a:/opt/b` and an
unset `ICONV_PATH` both resolve `X-FOO` to the default directory, although
`/opt/b/foo.so` exists. -/
theorem getpath_setugid_ignores_env_witness :
    (iconv_getpath sample_consts sample_env_setugid [] "X-FOO".toList =
      iconv_getpath sample_consts sample_env_setugid_unset [] "X-FOO".toList ∧
     iconv_getpath sample_consts sample_env_setugid [] "X-FOO".toList =
      (compose_file sample_consts "X-FOO".toList).map (fun file =>
        (if sample_env_setugid.is_regular
            (snprintf sample_consts.PATH_MAX (sample_consts.ICONV_DEFAULT_PATH ++ '/' :: file))
          then 0 else EINVAL,
         snprintf sample_consts.PATH_MAX (sample_consts.ICONV_DEFAULT_PATH ++ '/' :: file)))) ∧
    iconv_getpath sample_consts sample_env_setugid [] "X-FOO".toList =
      some (0, "/usr/local/lib/iconv/foo.so".toList) :=
  ⟨getpath_setugid_ignores_env sample_consts sample_env_setugid sample_env_setugid_unset []
    "X-FOO".toList rfl rfl rfl, by decide⟩

/-- C10: `iconv_mod_noevent` returns 0 for the events `ICMODEV_LOAD`,
`ICMODEV_UNLOAD` and `ICMODEV_DYNDEPS`, returns `EINVAL` for every other
event, and leaves the instance as it was in both cases. -/
theorem noevent_result (c : Consts) (mod : iconv_module) (event : Int) :
    iconv_mod_noevent c mod event =
      (if event = c.ICMODEV_LOAD ∨ event = c.ICMODEV_UNLOAD ∨ event = c.ICMODEV_DYNDEPS
        then 0 else EINVAL, mod) ∧
    EINVAL ≠ 0 := by
  refine ⟨?_, by decide⟩
  unfold iconv_mod_noevent
  split <;> rfl

/-! ## Unload: C8, C9 -/

theorem emit_trace (s : State) (ev : Event) : (s.emit ev).trace = s.trace ++ [ev] := rfl

theorem new_events_append (s s1 : State) (evs : List Event) (h : s1.trace = s.trace ++ evs) :
    new_events s s1 = evs := by
  unfold new_events
  rw [h, List.drop_left]

theorem instances_eq (mod : iconv_module) :
    instances mod = mod :: instances_list mod.im_deplist := by
  cases mod
  simp [instances, iconv_module.im_deplist]

theorem unloadEvents_nil (c : Consts) : UnloadEvents c [] [] := by
  constructor <;> intros <;> simp [closes, unload_calls, frees, opens, load_calls]

theorem unloadEvents_append (c : Consts) {n1 n2 : List iconv_module} {e1 e2 : List Event}
    (h1 : UnloadEvents c n1 e1) (h2 : UnloadEvents c n2 e2) :
    UnloadEvents c (n1 ++ n2) (e1 ++ e2) := by
  constructor
  · intro h hh
    simp only [closes, List.countP_append]
    have a1 := h1.closes_eq h hh
    have a2 := h2.closes_eq h hh
    simp only [closes] at a1 a2
    rw [a1, a2]
  · have a1 := h1.closes_null
    have a2 := h2.closes_null
    simp only [closes, List.countP_append] at a1 a2 ⊢
    rw [a1, a2]
  · intro a
    have a1 := h1.unloads_eq a
    have a2 := h2.unloads_eq a
    simp only [unload_calls, List.countP_append] at a1 a2 ⊢
    rw [a1, a2]
  · intro a
    have a1 := h1.frees_eq a
    have a2 := h2.frees_eq a
    simp only [frees, List.countP_append] at a1 a2 ⊢
    rw [a1, a2]
  · intro h
    have a1 := h1.opens_eq h
    have a2 := h2.opens_eq h
    simp only [opens, List.countP_append] at a1 a2 ⊢
    rw [a1, a2]
  · intro a
    have a1 := h1.loads_eq a
    have a2 := h2.loads_eq a
    simp only [load_calls, List.countP_append] at a1 a2 ⊢
    rw [a1, a2]

/-- The events of the unload of one instance, given those of its dependency
list: optional callback, the dependencies, optional `dlclose`, `free`. -/
theorem unloadEvents_node (c : Consts) (mod : iconv_module) (r rc : Int) (devs : List Event)
    (nodes : List iconv_module) (hd : UnloadEvents c nodes devs) :
    UnloadEvents c (mod :: nodes)
      ((if is_loaded c mod then [Event.mod_unload mod.addr r] else []) ++ devs ++
        (if mod.im_handle ≠ 0 then [Event.dlclose mod.im_handle rc] else []) ++
        [Event.free mod.addr]) := by
  constructor
  · intro h hh
    have a := hd.closes_eq h hh
    simp only [closes] at a
    simp only [closes, List.countP_append, List.countP_cons, a]
    generalize mod.im_handle = x
    generalize is_loaded c mod = b
    cases b <;> by_cases h0 : x = 0 <;> by_cases he : x = h <;>
      simp [h0, he, hh, Ne.symm hh]
  · have a := hd.closes_null
    simp only [closes] at a
    simp only [closes, List.countP_append, a]
    generalize mod.im_handle = x
    generalize is_loaded c mod = b
    cases b <;> by_cases h0 : x = 0 <;> simp [h0]
  · intro y
    have a := hd.unloads_eq y
    simp only [unload_calls] at a
    simp only [unload_calls, List.countP_append, List.countP_cons, a]
    generalize mod.im_handle = x
    generalize is_loaded c mod = b
    generalize mod.addr = z
    cases b <;> by_cases h0 : x = 0 <;> by_cases he : z = y <;> simp [h0, he] <;> omega
  · intro y
    have a := hd.frees_eq y
    simp only [frees] at a
    simp only [frees, List.countP_append, List.countP_cons, a]
    generalize mod.im_handle = x
    generalize is_loaded c mod = b
    generalize mod.addr = z
    cases b <;> by_cases h0 : x = 0 <;> by_cases he : z = y <;> simp [h0, he]
  · intro h
    have a := hd.opens_eq h
    simp only [opens] at a
    simp only [opens, List.countP_append, a]
    generalize mod.im_handle = x
    generalize is_loaded c mod = b
    cases b <;> by_cases h0 : x = 0 <;> simp [h0]
  · intro y
    have a := hd.loads_eq y
    simp only [load_calls] at a
    simp only [load_calls, List.countP_append, a]
    generalize mod.im_handle = x
    generalize is_loaded c mod = b
    cases b <;> by_cases h0 : x = 0 <;> simp [h0]

/-- The shape of the trace of `iconv_mod_unload` on a non-null instance. -/
theorem unload_nonnull_shape (c : Consts) (w : World) (mod : iconv_module) (s : State) :
    let r1 := if mod.im_flags &&& c.ICMODF_LOADED ≠ 0 then ICONV_MOD_UNLOAD c mod s else (0, s)
    let s2 := iconv_mod_unload_deplist c w mod.im_deplist r1.2
    let r3 := if mod.im_handle ≠ 0 then
        ((if (dlclose w mod.im_handle s2).1 ≠ 0 then EINVAL else r1.1),
          (dlclose w mod.im_handle s2).2)
      else (r1.1, s2)
    iconv_mod_unload_nonnull c w mod s = (r3.1, r3.2.emit (.free mod.addr)) := by
  cases mod
  simp only [iconv_mod_unload_nonnull, iconv_module.im_flags, iconv_module.im_deplist,
    iconv_module.im_handle, iconv_module.addr]

/-- The result and the trace of `iconv_mod_unload` on a non-null instance,
given the events `devs` that the loop over its dependency list adds: the unload
callback if the instance is loaded (result `r`), the events of the
dependencies, the `dlclose` of a non-null handle (result `rc`), and the `free`
of the instance. -/
theorem unload_nonnull_trace (c : Consts) (w : World) (mod : iconv_module) (s : State)
    (devs : List Event)
    (hdev : ∀ s1 : State,
      s1 = (if mod.im_flags &&& c.ICMODF_LOADED ≠ 0 then (ICONV_MOD_UNLOAD c mod s).2 else s) →
      iconv_mod_unload_deplist c w mod.im_deplist s1 = ⟨s1.trace ++ devs, s1.brk⟩) :
    ∃ r rc, iconv_mod_unload_nonnull c w mod s =
      ((if mod.im_handle ≠ 0 ∧ rc ≠ 0 then EINVAL else if is_loaded c mod then r else 0),
       ⟨s.trace ++ ((if is_loaded c mod then [Event.mod_unload mod.addr r] else []) ++ devs ++
          (if mod.im_handle ≠ 0 then [Event.dlclose mod.im_handle rc] else []) ++
          [Event.free mod.addr]), s.brk⟩) := by
  rw [unload_nonnull_shape]
  by_cases hl : mod.im_flags &&& c.ICMODF_LOADED ≠ 0
  · have hl2 : is_loaded c mod = true := by simp [is_loaded, hl]
    refine ⟨(ICONV_MOD_UNLOAD c mod s).1, ?_⟩
    have hd := hdev (ICONV_MOD_UNLOAD c mod s).2 (by rw [if_pos hl])
    by_cases hh : mod.im_handle ≠ 0
    · refine ⟨(dlclose w mod.im_handle ⟨(ICONV_MOD_UNLOAD c mod s).2.trace ++ devs, s.brk⟩).1, ?_⟩
      simp only [hl, hl2, hh, if_true, hd, ne_eq, not_false_eq_true, true_and]
      simp [dlclose, State.emit, ICONV_MOD_UNLOAD]
    · refine ⟨0, ?_⟩
      simp only [hl, hl2, hh, if_true, if_false, hd, ne_eq, not_false_eq_true, false_and]
      simp [State.emit, ICONV_MOD_UNLOAD]
  · have hl2 : is_loaded c mod = false := by simp [is_loaded, hl]
    refine ⟨0, ?_⟩
    have hd := hdev s (by rw [if_neg hl])
    by_cases hh : mod.im_handle ≠ 0
    · refine ⟨(dlclose w mod.im_handle ⟨s.trace ++ devs, s.brk⟩).1, ?_⟩
      simp only [hl, hl2, hh, if_true, if_false, hd, ne_eq, not_false_eq_true, true_and]
      simp [dlclose, State.emit]
    · refine ⟨0, ?_⟩
      simp only [hl, hl2, hh, if_true, if_false, hd, ne_eq, not_false_eq_true, false_and]
      simp [State.emit]

mutual
/-- The trace of the unload of an instance: the events added close each
non-null handle of the tree once per instance holding it, invoke the unload
callback once per loaded instance, free each instance, open nothing and load
nothing; the allocation counter is unchanged. -/
theorem unload_nonnull_events (c : Consts) (w : World) :
    ∀ (mod : iconv_module) (s : State), ∃ evs,
      (iconv_mod_unload_nonnull c w mod s).2 = ⟨s.trace ++ evs, s.brk⟩ ∧
      UnloadEvents c (instances mod) evs
  | .mk addr im_flags im_handle im_desc im_deplist im_depcnt im_depdata im_args, s => by
    obtain ⟨devs, hd, ud⟩ := unload_deplist_events c w im_deplist
      (if im_flags &&& c.ICMODF_LOADED ≠ 0 then (ICONV_MOD_UNLOAD c
        (.mk addr im_flags im_handle im_desc im_deplist im_depcnt im_depdata im_args) s).2 else s)
    obtain ⟨r, rc, h⟩ := unload_nonnull_trace c w
      (.mk addr im_flags im_handle im_desc im_deplist im_depcnt im_depdata im_args) s devs
      (fun s1 hs1 => by subst hs1; exact hd)
    refine ⟨_, by rw [h], ?_⟩
    rw [instances_eq]
    exact unloadEvents_node c _ r rc devs _ ud
/-- The trace of the `while (deplist)` loop of the unload. -/
theorem unload_deplist_events (c : Consts) (w : World) :
    ∀ (deplist : List iconv_module) (s : State), ∃ evs,
      iconv_mod_unload_deplist c w deplist s = ⟨s.trace ++ evs, s.brk⟩ ∧
      UnloadEvents c (instances_list deplist) evs
  | [], s => ⟨[], by simp [iconv_mod_unload_deplist], by
      simp only [instances_list]; exact unloadEvents_nil c⟩
  | mod :: im_next, s => by
    obtain ⟨e1, h1, u1⟩ := unload_nonnull_events c w mod s
    obtain ⟨e2, h2, u2⟩ := unload_deplist_events c w im_next
      (iconv_mod_unload_nonnull c w mod s).2
    refine ⟨e1 ++ e2, ?_, ?_⟩
    · simp only [iconv_mod_unload_deplist]
      rw [h2, h1]
      simp
    · simp only [instances_list]
      exact unloadEvents_append c u1 u2
end

theorem mem_instances_self (mod : iconv_module) : mod ∈ instances mod := by
  rw [instances_eq]
  exact List.mem_cons_self _ _

theorem mem_instances_list (deplist : List iconv_module) (d : iconv_module)
    (h : d ∈ deplist) : d ∈ instances_list deplist := by
  induction deplist with
  | nil => cases h
  | cons x l ih =>
    simp only [instances_list, List.mem_append]
    rcases List.mem_cons.1 h with rfl | h1
    · exact Or.inl (mem_instances_self _)
    · exact Or.inr (ih h1)

theorem mem_of_frees_pos (a : Ptr) (evs : List Event) (h : 0 < frees a evs) :
    Event.free a ∈ evs := by
  unfold frees at h
  obtain ⟨ev, hm, hp⟩ := List.countP_pos_iff.1 h
  cases ev <;> simp at hp
  subst hp
  exact hm

theorem mem_of_unload_calls_pos (a : Ptr) (evs : List Event) (h : 0 < unload_calls a evs) :
    ∃ r, Event.mod_unload a r ∈ evs := by
  unfold unload_calls at h
  obtain ⟨ev, hm, hp⟩ := List.countP_pos_iff.1 h
  cases ev <;> simp at hp
  subst hp
  exact ⟨_, hm⟩

/-- C9: `iconv_mod_unload` on a non-null instance tree, whatever its state
(loaded or partially constructed) and whatever the callbacks and `dlclose`
return, calls `dlclose` on each non-null handle once per instance of the tree
that holds it (and on no other handle, and never on `NULL`), invokes the
unload callback once per instance of the tree whose loaded flag is set (and on
no other instance), frees each instance once, and opens nothing. -/
theorem unload_releases_tree (c : Consts) (w : World) (mod : iconv_module) (s : State) :
    (iconv_mod_unload c w (some mod) s).2.trace =
      s.trace ++ new_events s (iconv_mod_unload c w (some mod) s).2 ∧
    (∀ h, h ≠ 0 → closes h (new_events s (iconv_mod_unload c w (some mod) s).2) =
      (instances mod).countP (fun n => decide (n.im_handle = h))) ∧
    closes 0 (new_events s (iconv_mod_unload c w (some mod) s).2) = 0 ∧
    (∀ a, unload_calls a (new_events s (iconv_mod_unload c w (some mod) s).2) =
      (instances mod).countP (fun n => decide (n.addr = a) && is_loaded c n)) ∧
    (∀ a, frees a (new_events s (iconv_mod_unload c w (some mod) s).2) =
      (instances mod).countP (fun n => decide (n.addr = a))) ∧
    (∀ h, opens h (new_events s (iconv_mod_unload c w (some mod) s).2) = 0) := by
  obtain ⟨evs, h, u⟩ := unload_nonnull_events c w mod s
  have ht : (iconv_mod_unload c w (some mod) s).2.trace = s.trace ++ evs := by
    simp only [iconv_mod_unload]
    rw [h]
  have hn := new_events_append s _ evs ht
  rw [hn]
  exact ⟨ht, u.closes_eq, u.closes_null, u.unloads_eq, u.frees_eq, u.opens_eq⟩

/-- C8: unloading a loaded instance (flag set, handle non-null) invokes its
unload callback (result `r`), then unloads every entry of its dependency list
(each is freed, and has its unload callback invoked if it is loaded), then
calls `dlclose` on its handle (result `rc`) and only then frees the instance;
the return code is `EINVAL` if `rc` is not 0 and `r` otherwise, whatever the
unload callbacks of the dependencies returned: it is 0 when `r` and `rc` are. -/
theorem unload_parent_result (c : Consts) (w : World) (mod : iconv_module) (s : State)
    (hl : is_loaded c mod = true) (hh : mod.im_handle ≠ 0) :
    ∃ r rc devs,
      iconv_mod_unload c w (some mod) s =
        (if rc ≠ 0 then EINVAL else r,
         ⟨s.trace ++ ([Event.mod_unload mod.addr r] ++ devs ++
            [Event.dlclose mod.im_handle rc, Event.free mod.addr]), s.brk⟩) ∧
      (∀ d ∈ mod.im_deplist, Event.free d.addr ∈ devs ∧
        (is_loaded c d = true → ∃ rd, Event.mod_unload d.addr rd ∈ devs)) ∧
      (r = 0 → rc = 0 → (iconv_mod_unload c w (some mod) s).1 = 0) := by
  obtain ⟨devs, hd, ud⟩ := unload_deplist_events c w mod.im_deplist
    (if mod.im_flags &&& c.ICMODF_LOADED ≠ 0 then (ICONV_MOD_UNLOAD c mod s).2 else s)
  obtain ⟨r, rc, h⟩ := unload_nonnull_trace c w mod s devs (fun s1 hs1 => by subst hs1; exact hd)
  simp only [hl, hh, if_true, ne_eq, not_false_eq_true, true_and] at h
  refine ⟨r, rc, devs, ?_, ?_, ?_⟩
  · simp only [iconv_mod_unload, h, ne_eq, List.append_assoc, List.singleton_append,
      List.cons_append, List.nil_append]
  · intro d hdm
    have hin := mem_instances_list _ _ hdm
    constructor
    · apply mem_of_frees_pos
      rw [ud.frees_eq]
      exact List.countP_pos_iff.2 ⟨d, hin, by simp⟩
    · intro hld
      apply mem_of_unload_calls_pos
      rw [ud.unloads_eq]
      exact List.countP_pos_iff.2 ⟨d, hin, by simp [hld]⟩
  · intro hr hrc
    simp only [iconv_mod_unload, h]
    simp [hr, hrc]

/-! ## Load: the invariants of the recursion -/

theorem childBeforeParent_nil : ChildBeforeParent [] := by
  intro pre a deps r post h
  simp at h

theorem childBeforeParent_append {e1 e2 : List Event} (h1 : ChildBeforeParent e1)
    (h2 : ChildBeforeParent e2) : ChildBeforeParent (e1 ++ e2) := by
  intro pre a deps r post h d hd
  rcases List.append_eq_append_iff.1 h with ⟨a1, hp, he⟩ | ⟨c1, he, hp⟩
  · obtain ⟨deps1, hm⟩ := h2 a1 a deps r post he d hd
    exact ⟨deps1, by rw [hp]; exact List.mem_append_right _ hm⟩
  · cases c1 with
    | nil =>
      simp only [List.nil_append] at hp
      obtain ⟨deps1, hm⟩ := h2 [] a deps r post (by rw [← hp]; rfl) d hd
      cases hm
    | cons x c2 =>
      simp only [List.cons_append, List.cons.injEq] at hp
      obtain ⟨hx, -⟩ := hp
      subst hx
      exact h1 pre a deps r c2 he d hd

theorem childBeforeParent_of_no_load {evs : List Event}
    (h : ∀ a, load_calls a evs = 0) : ChildBeforeParent evs := by
  intro pre a deps r post he
  exfalso
  have h0 := h a
  unfold load_calls at h0
  rw [List.countP_eq_zero] at h0
  have := h0 (Event.mod_load a deps r) (by rw [he]; simp)
  simp at this

theorem childBeforeParent_snoc_load {evs : List Event} (h1 : ChildBeforeParent evs)
    (a : Ptr) (deps : List Ptr) (r : Int)
    (hd : ∀ d ∈ deps, ∃ deps1, Event.mod_load d deps1 0 ∈ evs) :
    ChildBeforeParent (evs ++ [Event.mod_load a deps r]) := by
  intro pre a1 deps1 r1 post h d hdm
  rcases List.append_eq_append_iff.1 h with ⟨a2, hp, he⟩ | ⟨c1, he, hp⟩
  · cases a2 with
    | nil =>
      simp only [List.nil_append, List.cons.injEq, Event.mod_load.injEq] at he
      obtain ⟨⟨-, hdeps, -⟩, -⟩ := he
      subst hdeps
      simp only [List.append_nil] at hp
      subst hp
      exact hd d hdm
    | cons x a3 =>
      simp only [List.cons_append, List.cons.injEq] at he
      have := he.2
      simp at this
  · cases c1 with
    | nil =>
      simp only [List.nil_append, List.cons.injEq, Event.mod_load.injEq] at hp
      obtain ⟨⟨-, hdeps, -⟩, -⟩ := hp
      subst hdeps
      simp only [List.append_nil] at he
      subst he
      exact hd d hdm
    | cons x c2 =>
      simp only [List.cons_append, List.cons.injEq] at hp
      obtain ⟨hx, -⟩ := hp
      subst hx
      exact h1 pre a1 deps1 r1 c2 he d hdm

theorem opens_append (h : Ptr) (e1 e2 : List Event) :
    opens h (e1 ++ e2) = opens h e1 + opens h e2 := by
  simp [opens, List.countP_append]

theorem closes_append (h : Ptr) (e1 e2 : List Event) :
    closes h (e1 ++ e2) = closes h e1 + closes h e2 := by
  simp [closes, List.countP_append]

theorem load_calls_append (a : Ptr) (e1 e2 : List Event) :
    load_calls a (e1 ++ e2) = load_calls a e1 + load_calls a e2 := by
  simp [load_calls, List.countP_append]

theorem holders_append (h : Ptr) (n1 n2 : List iconv_module) :
    holders h (n1 ++ n2) = holders h n1 + holders h n2 := by
  simp [holders, List.countP_append]

theorem push_deps_nil (mod : iconv_module) : mod.push_deps [] = mod := by
  cases mod
  rfl

theorem push_deps_attach (mod dm : iconv_module) (nd : List iconv_module) :
    (mod.attach dm).push_deps nd = mod.push_deps (nd ++ [dm]) := by
  cases mod
  simp [iconv_module.attach, iconv_module.push_deps]

theorem instances_list_append (l1 l2 : List iconv_module) :
    instances_list (l1 ++ l2) = instances_list l1 ++ instances_list l2 := by
  induction l1 with
  | nil => simp [instances_list]
  | cons x l ih => simp [instances_list, ih]

theorem instances_list_singleton (mod : iconv_module) :
    instances_list [mod] = instances mod := by
  simp [instances_list]

theorem holders_set_depdata (h : Ptr) (mod : iconv_module) (data : Ptr) :
    holders h (instances (mod.set_depdata data)) = holders h (instances mod) := by
  cases mod
  simp [iconv_module.set_depdata, instances, holders, List.countP_cons, iconv_module.im_handle]

theorem addr_set_depdata (mod : iconv_module) (data : Ptr) :
    (mod.set_depdata data).addr = mod.addr := by
  cases mod
  rfl

theorem depsInv_refl (s : State) (mod : iconv_module) : DepsInv s mod mod s [] [] where
  trace_eq := by simp
  brk_le := Nat.le_refl _
  ordered := childBeforeParent_nil
  fresh := by intro a _; simp [load_calls]
  mod_eq := (push_deps_nil mod).symm
  balance := by intro h _; simp [opens, closes, holders, instances_list]
  loaded_events := by intro d hd; cases hd

/-- A successful load followed by a loop that starts from the instance with
the loaded dependency attached. -/
theorem depsInv_cons_ok {s s1 s2 : State} {mod mod2 dm dm1 : iconv_module}
    {evs1 evs2 : List Event} {nd : List iconv_module}
    (h1 : LoadInv s (.ok dm) s1 evs1)
    (haddr : dm1.addr = dm.addr)
    (hhold : ∀ h, holders h (instances dm1) = holders h (instances dm))
    (h2 : DepsInv s1 (mod.attach dm1) mod2 s2 evs2 nd) :
    DepsInv s mod mod2 s2 (evs1 ++ evs2) (nd ++ [dm1]) where
  trace_eq := by rw [h2.trace_eq, h1.trace_eq, List.append_assoc]
  brk_le := Nat.le_trans h1.brk_le h2.brk_le
  ordered := childBeforeParent_append h1.ordered h2.ordered
  fresh := by
    intro a ha
    rw [load_calls_append, h1.fresh a ha, h2.fresh a (Nat.le_trans ha h1.brk_le)]
  mod_eq := by rw [h2.mod_eq, push_deps_attach]
  balance := by
    intro h hh
    have b1 := h1.balance h hh
    have b2 := h2.balance h hh
    simp only at b1
    rw [opens_append, closes_append, instances_list_append, holders_append,
      instances_list_singleton, hhold, b1, b2]
    omega
  loaded_events := by
    intro d hd
    rcases List.mem_append.1 hd with hd | hd
    · obtain ⟨deps1, hm⟩ := h2.loaded_events d hd
      exact ⟨deps1, List.mem_append_right _ hm⟩
    · rw [List.mem_singleton] at hd
      subst hd
      obtain ⟨pre, hp⟩ := h1.loaded_event dm rfl
      refine ⟨dm.im_deplist.map iconv_module.addr, List.mem_append_left _ ?_⟩
      rw [hp, haddr]
      simp

/-- A failed load followed by a loop that goes on from the same instance. -/
theorem depsInv_cons_error {s s1 s2 : State} {mod mod2 : iconv_module} {e : Int}
    {evs1 evs2 : List Event} {nd : List iconv_module}
    (h1 : LoadInv s (.error e) s1 evs1)
    (h2 : DepsInv s1 mod mod2 s2 evs2 nd) :
    DepsInv s mod mod2 s2 (evs1 ++ evs2) nd where
  trace_eq := by rw [h2.trace_eq, h1.trace_eq, List.append_assoc]
  brk_le := Nat.le_trans h1.brk_le h2.brk_le
  ordered := childBeforeParent_append h1.ordered h2.ordered
  fresh := by
    intro a ha
    rw [load_calls_append, h1.fresh a ha, h2.fresh a (Nat.le_trans ha h1.brk_le)]
  mod_eq := h2.mod_eq
  balance := by
    intro h hh
    have b1 := h1.balance h hh
    have b2 := h2.balance h hh
    simp only at b1
    rw [opens_append, closes_append, b1, b2]
    omega
  loaded_events := by
    intro d hd
    obtain ⟨deps1, hm⟩ := h2.loaded_events d hd
    exact ⟨deps1, List.mem_append_right _ hm⟩

theorem traceInv_refl (s : State) : TraceInv s s [] where
  trace_eq := by simp
  brk_le := Nat.le_refl _
  ordered := childBeforeParent_nil
  fresh := by intro a _; simp [load_calls]

theorem traceInv_trans {s s1 s2 : State} {e1 e2 : List Event}
    (h1 : TraceInv s s1 e1) (h2 : TraceInv s1 s2 e2) : TraceInv s s2 (e1 ++ e2) where
  trace_eq := by rw [h2.trace_eq, h1.trace_eq, List.append_assoc]
  brk_le := Nat.le_trans h1.brk_le h2.brk_le
  ordered := childBeforeParent_append h1.ordered h2.ordered
  fresh := by
    intro a ha
    rw [load_calls_append, h1.fresh a ha, h2.fresh a (Nat.le_trans ha h1.brk_le)]

theorem traceInv_of_loadInv {s s1 : State} {res : Except Int iconv_module} {evs : List Event}
    (h : LoadInv s res s1 evs) : TraceInv s s1 evs :=
  ⟨h.trace_eq, h.brk_le, h.ordered, h.fresh⟩

theorem traceInv_of_depsInv {s s1 : State} {mod mod1 : iconv_module} {evs : List Event}
    {nd : List iconv_module} (h : DepsInv s mod mod1 s1 evs nd) : TraceInv s s1 evs :=
  ⟨h.trace_eq, h.brk_le, h.ordered, h.fresh⟩

/-- The static dependency loop: what it adds to the trace, and that it attached
one instance per entry when it ends with `error` 0. -/
theorem load_depends_inv (loader : Loader) (hl : LoaderOk loader) :
    ∀ (depend : List iconv_module_depend) (mod : iconv_module) (s : State)
      (error : Int) (mod1 : iconv_module) (s1 : State),
      load_depends loader depend mod s = (some (error, mod1), s1) →
      ∃ evs nd, DepsInv s mod mod1 s1 evs nd ∧ (error = 0 → nd.length = depend.length)
  | [], mod, s, error, mod1, s1, h => by
    simp only [load_depends, Prod.mk.injEq, Option.some.injEq] at h
    obtain ⟨⟨h1, h2⟩, h3⟩ := h
    subst h1 h2 h3
    exact ⟨[], [], depsInv_refl _ _, fun _ => rfl⟩
  | d :: rest, mod, s, error, mod1, s1, h => by
    simp only [load_depends] at h
    rcases hld : loader d.md_name d.md_type 0 s with ⟨res, s2⟩
    rw [hld] at h
    cases res with
    | none => simp at h
    | some res =>
      obtain ⟨evs1, inv1⟩ := (hl _ _ _ _).1 _ _ hld
      cases res with
      | error e =>
        simp only [Prod.mk.injEq, Option.some.injEq] at h
        obtain ⟨⟨h1, h2⟩, h3⟩ := h
        subst h1 h2 h3
        refine ⟨evs1 ++ [], [], depsInv_cons_error inv1 (depsInv_refl _ _), ?_⟩
        intro h0
        exact absurd h0 (inv1.error_ne _ rfl)
      | ok dm =>
        simp only at h
        obtain ⟨evs2, nd, inv2, hlen⟩ := load_depends_inv loader hl rest _ _ _ _ _ h
        refine ⟨evs1 ++ evs2, nd ++ [dm.set_depdata d.md_data],
          depsInv_cons_ok inv1 (addr_set_depdata _ _) (fun h => holders_set_depdata h _ _) inv2, ?_⟩
        intro h0
        simp [hlen h0]

/-- The static dependency loop when a recursive call has not returned. -/
theorem load_depends_cut (loader : Loader) (hl : LoaderOk loader) :
    ∀ (depend : List iconv_module_depend) (mod : iconv_module) (s s1 : State),
      load_depends loader depend mod s = (none, s1) → ∃ evs, TraceInv s s1 evs
  | [], mod, s, s1, h => by
    simp [load_depends] at h
  | d :: rest, mod, s, s1, h => by
    simp only [load_depends] at h
    rcases hld : loader d.md_name d.md_type 0 s with ⟨res, s2⟩
    rw [hld] at h
    cases res with
    | none =>
      simp only [Prod.mk.injEq, true_and] at h
      subst h
      exact (hl _ _ _ _).2 _ hld
    | some res =>
      obtain ⟨evs1, inv1⟩ := (hl _ _ _ _).1 _ _ hld
      cases res with
      | error e => simp at h
      | ok dm =>
        simp only at h
        obtain ⟨evs2, inv2⟩ := load_depends_cut loader hl rest _ _ _ h
        exact ⟨evs1 ++ evs2, traceInv_trans (traceInv_of_loadInv inv1) inv2⟩

/-- A run of a dynamic-dependency callback: what it adds to the trace. -/
theorem run_dyndeps_inv (loader : Loader) (hl : LoaderOk loader) :
    ∀ (script : DynDeps) (mod : iconv_module) (s : State)
      (ret : Int) (mod1 : iconv_module) (s1 : State),
      run_dyndeps loader script mod s = (some (ret, mod1), s1) →
      ∃ evs nd, DepsInv s mod mod1 s1 evs nd
  | .done r, mod, s, ret, mod1, s1, h => by
    simp only [run_dyndeps, Prod.mk.injEq, Option.some.injEq] at h
    obtain ⟨⟨h1, h2⟩, h3⟩ := h
    subst h1 h2 h3
    exact ⟨[], [], depsInv_refl _ _⟩
  | .load name type args next, mod, s, ret, mod1, s1, h => by
    simp only [run_dyndeps] at h
    rcases hld : loader name type args s with ⟨res, s2⟩
    rw [hld] at h
    cases res with
    | none => simp at h
    | some res =>
      obtain ⟨evs1, inv1⟩ := (hl _ _ _ _).1 _ _ hld
      cases res with
      | error e =>
        simp only at h
        obtain ⟨evs2, nd, inv2⟩ := run_dyndeps_inv loader hl (next e) _ _ _ _ _ h
        exact ⟨evs1 ++ evs2, nd, depsInv_cons_error inv1 inv2⟩
      | ok dm =>
        simp only at h
        obtain ⟨evs2, nd, inv2⟩ := run_dyndeps_inv loader hl (next 0) _ _ _ _ _ h
        exact ⟨evs1 ++ evs2, nd ++ [dm], depsInv_cons_ok inv1 rfl (fun _ => rfl) inv2⟩

/-- A run of a dynamic-dependency callback when a recursive call has not
returned. -/
theorem run_dyndeps_cut (loader : Loader) (hl : LoaderOk loader) :
    ∀ (script : DynDeps) (mod : iconv_module) (s s1 : State),
      run_dyndeps loader script mod s = (none, s1) → ∃ evs, TraceInv s s1 evs
  | .done r, mod, s, s1, h => by
    simp [run_dyndeps] at h
  | .load name type args next, mod, s, s1, h => by
    simp only [run_dyndeps] at h
    rcases hld : loader name type args s with ⟨res, s2⟩
    rw [hld] at h
    cases res with
    | none =>
      simp only [Prod.mk.injEq, true_and] at h
      subst h
      exact (hl _ _ _ _).2 _ hld
    | some res =>
      obtain ⟨evs1, inv1⟩ := (hl _ _ _ _).1 _ _ hld
      cases res with
      | error e =>
        simp only at h
        obtain ⟨evs2, inv2⟩ := run_dyndeps_cut loader hl (next e) _ _ _ h
        exact ⟨evs1 ++ evs2, traceInv_trans (traceInv_of_loadInv inv1) inv2⟩
      | ok dm =>
        simp only at h
        obtain ⟨evs2, inv2⟩ := run_dyndeps_cut loader hl (next 0) _ _ _ h
        exact ⟨evs1 ++ evs2, traceInv_trans (traceInv_of_loadInv inv1) inv2⟩
theorem push_deps_fields (mod : iconv_module) (nd : List iconv_module) :
    (mod.push_deps nd).addr = mod.addr ∧ (mod.push_deps nd).im_handle = mod.im_handle ∧
    (mod.push_deps nd).im_deplist = nd ++ mod.im_deplist ∧
    (mod.push_deps nd).im_depcnt = mod.im_depcnt ∧
    (mod.push_deps nd).im_desc = mod.im_desc ∧
    (mod.push_deps nd).im_args = mod.im_args ∧
    (mod.push_deps nd).im_flags = mod.im_flags := by
  cases mod
  simp [iconv_module.push_deps, iconv_module.addr, iconv_module.im_handle,
    iconv_module.im_deplist, iconv_module.im_depcnt, iconv_module.im_desc,
    iconv_module.im_args, iconv_module.im_flags]

theorem push_deps_push_deps (mod : iconv_module) (n1 n2 : List iconv_module) :
    (mod.push_deps n1).push_deps n2 = mod.push_deps (n2 ++ n1) := by
  cases mod
  simp [iconv_module.push_deps]

theorem set_depcnt_fields (mod : iconv_module) (n : Nat) :
    (mod.set_depcnt n).addr = mod.addr ∧ (mod.set_depcnt n).im_handle = mod.im_handle ∧
    (mod.set_depcnt n).im_deplist = mod.im_deplist ∧
    (mod.set_depcnt n).im_depcnt = n ∧
    (mod.set_depcnt n).im_desc = mod.im_desc ∧
    (mod.set_depcnt n).im_args = mod.im_args ∧
    (mod.set_depcnt n).im_flags = mod.im_flags := by
  cases mod
  simp [iconv_module.set_depcnt, iconv_module.addr, iconv_module.im_handle,
    iconv_module.im_deplist, iconv_module.im_depcnt, iconv_module.im_desc,
    iconv_module.im_args, iconv_module.im_flags]

theorem set_flags_fields (mod : iconv_module) (f : Nat) :
    (mod.set_flags f).addr = mod.addr ∧ (mod.set_flags f).im_handle = mod.im_handle ∧
    (mod.set_flags f).im_deplist = mod.im_deplist ∧
    (mod.set_flags f).im_depcnt = mod.im_depcnt ∧
    (mod.set_flags f).im_desc = mod.im_desc ∧
    (mod.set_flags f).im_args = mod.im_args ∧
    (mod.set_flags f).im_flags = f := by
  cases mod
  simp [iconv_module.set_flags, iconv_module.addr, iconv_module.im_handle,
    iconv_module.im_deplist, iconv_module.im_depcnt, iconv_module.im_desc,
    iconv_module.im_args, iconv_module.im_flags]

theorem holders_instances (h : Ptr) (mod : iconv_module) :
    holders h (instances mod) = holders h [mod] + holders h (instances_list mod.im_deplist) := by
  rw [instances_eq]
  simp [holders, List.countP_cons]
  omega

theorem holders_singleton_congr (h : Ptr) (m1 m2 : iconv_module)
    (e : m1.im_handle = m2.im_handle) : holders h [m1] = holders h [m2] := by
  simp [holders, List.countP_cons, e]

theorem count_deplist_eq (l : List iconv_module) (n : Nat) :
    count_deplist l n = n + l.length := by
  induction l generalizing n with
  | nil => simp [count_deplist]
  | cons x l ih =>
    simp only [count_deplist, ih, List.length_cons]
    omega

theorem depsInv_trans {s s1 s2 : State} {mod mod1 mod2 : iconv_module}
    {evs1 evs2 : List Event} {n1 n2 : List iconv_module}
    (h1 : DepsInv s mod mod1 s1 evs1 n1) (h2 : DepsInv s1 mod1 mod2 s2 evs2 n2) :
    DepsInv s mod mod2 s2 (evs1 ++ evs2) (n2 ++ n1) where
  trace_eq := by rw [h2.trace_eq, h1.trace_eq, List.append_assoc]
  brk_le := Nat.le_trans h1.brk_le h2.brk_le
  ordered := childBeforeParent_append h1.ordered h2.ordered
  fresh := by
    intro a ha
    rw [load_calls_append, h1.fresh a ha, h2.fresh a (Nat.le_trans ha h1.brk_le)]
  mod_eq := by rw [h2.mod_eq, h1.mod_eq, push_deps_push_deps]
  balance := by
    intro h hh
    have b1 := h1.balance h hh
    have b2 := h2.balance h hh
    rw [opens_append, closes_append, instances_list_append, holders_append, b1, b2]
    omega
  loaded_events := by
    intro d hd
    rcases List.mem_append.1 hd with hd | hd
    · obtain ⟨deps1, hm⟩ := h2.loaded_events d hd
      exact ⟨deps1, List.mem_append_right _ hm⟩
    · obtain ⟨deps1, hm⟩ := h1.loaded_events d hd
      exact ⟨deps1, List.mem_append_left _ hm⟩

/-- Recording the return of the dynamic-dependency callback changes none of
the quantities of `DepsInv`. -/
theorem depsInv_emit_dyndeps {s s1 : State} {mod mod1 : iconv_module}
    {evs : List Event} {nd : List iconv_module}
    (h1 : DepsInv s mod mod1 s1 evs nd) (a : Ptr) (r : Int) :
    DepsInv s mod mod1 (s1.emit (.mod_dyndeps a r)) (evs ++ [Event.mod_dyndeps a r]) nd where
  trace_eq := by rw [emit_trace, h1.trace_eq, List.append_assoc]
  brk_le := h1.brk_le
  ordered := childBeforeParent_append h1.ordered
    (childBeforeParent_of_no_load (by intro x; simp [load_calls]))
  fresh := by
    intro x hx
    rw [load_calls_append, h1.fresh x hx]
    simp [load_calls]
  mod_eq := h1.mod_eq
  balance := by
    intro h hh
    rw [opens_append, closes_append, h1.balance h hh]
    simp [opens, closes]
  loaded_events := by
    intro d hd
    obtain ⟨deps1, hm⟩ := h1.loaded_events d hd
    exact ⟨deps1, List.mem_append_left _ hm⟩


theorem dyndeps_inv (c : Consts) (loader : Loader) (hl : LoaderOk loader)
    (mod : iconv_module) (s : State) (ret : Int) (mod1 : iconv_module) (s1 : State)
    (h : ICONV_MOD_DYNDEPS c loader mod s = (some (ret, mod1), s1)) :
    ∃ evs nd, DepsInv s mod mod1 s1 evs nd := by
  unfold ICONV_MOD_DYNDEPS at h
  cases hd : mod.im_desc.imd_dyndeps with
  | none =>
    rw [hd] at h
    simp only [Prod.mk.injEq, Option.some.injEq] at h
    obtain ⟨⟨h1, h2⟩, h3⟩ := h
    have hm : (iconv_mod_noevent c mod c.ICMODEV_DYNDEPS).2 = mod := by
      unfold iconv_mod_noevent
      split <;> rfl
    rw [hm] at h2
    subst h2
    rw [← h3]
    exact ⟨_, [], depsInv_emit_dyndeps (depsInv_refl s mod) _ _⟩
  | some f =>
    rw [hd] at h
    simp only at h
    rcases hr : run_dyndeps loader (f mod.im_args s.trace) mod s with ⟨r, s2⟩
    rw [hr] at h
    cases r with
    | none => simp at h
    | some r =>
      obtain ⟨ret1, mod2⟩ := r
      simp only [Prod.mk.injEq, Option.some.injEq] at h
      obtain ⟨⟨h1, h2⟩, h3⟩ := h
      obtain ⟨evs, nd, inv⟩ := run_dyndeps_inv loader hl _ _ _ _ _ _ hr
      subst h2
      rw [← h3]
      exact ⟨_, nd, depsInv_emit_dyndeps inv _ _⟩

theorem dyndeps_cut (c : Consts) (loader : Loader) (hl : LoaderOk loader)
    (mod : iconv_module) (s s1 : State)
    (h : ICONV_MOD_DYNDEPS c loader mod s = (none, s1)) :
    ∃ evs, TraceInv s s1 evs := by
  unfold ICONV_MOD_DYNDEPS at h
  cases hd : mod.im_desc.imd_dyndeps with
  | none =>
    rw [hd] at h
    simp at h
  | some f =>
    rw [hd] at h
    simp only at h
    rcases hr : run_dyndeps loader (f mod.im_args s.trace) mod s with ⟨r, s2⟩
    rw [hr] at h
    cases r with
    | none =>
      simp only [Prod.mk.injEq, true_and] at h
      subst h
      exact run_dyndeps_cut loader hl _ _ _ _ hr
    | some r => simp at h

theorem load_bad_events (c : Consts) (w : World) (mod : iconv_module) (e : Int) (s : State) :
    ∃ uevs, load_bad c w mod e s = (some (.error e), ⟨s.trace ++ uevs, s.brk⟩) ∧
      UnloadEvents c (instances mod) uevs := by
  obtain ⟨uevs, hu, ue⟩ := unload_nonnull_events c w mod s
  exact ⟨uevs, by simp only [load_bad, iconv_mod_unload, hu], ue⟩

/-- Leaving lines 136-165 through `bad:` before the load callback ran. -/
theorem bad_exit_inv (c : Consts) (w : World) {s sk : State} {mod modk : iconv_module}
    {evs : List Event} {nd : List iconv_module} (e : Int) (he : e ≠ 0)
    (inv : DepsInv s mod modk sk evs nd) (hdl : mod.im_deplist = []) :
    ∃ evs1, InstInv s mod (.error e) (load_bad c w modk e sk).2 evs1 ∧
      (∀ a, a ≤ s.brk → load_calls a evs1 = 0) := by
  obtain ⟨uevs, hu, ue⟩ := load_bad_events c w modk e sk
  rw [hu]
  have hf := push_deps_fields mod nd
  rw [← inv.mod_eq] at hf
  refine ⟨evs ++ uevs, ?_, ?_⟩
  · constructor
    · simp only [inv.trace_eq, List.append_assoc]
    · exact inv.brk_le
    · exact childBeforeParent_append inv.ordered (childBeforeParent_of_no_load ue.loads_eq)
    · intro a ha
      rw [load_calls_append, inv.fresh a (Nat.le_of_lt ha), ue.loads_eq]
    · intro h hh
      have b1 := inv.balance h hh
      have b2 : closes h uevs = holders h (instances modk) := ue.closes_eq h hh
      rw [opens_append, closes_append, ue.opens_eq, b1, b2, holders_instances, hf.2.2.1, hdl,
        List.append_nil, holders_singleton_congr h modk mod hf.2.1]
      simp only
      omega
    · intro m hm
      cases hm
    · intro e1 he1
      cases he1
      exact he
    · intro m hm
      cases hm
    · intro m hm
      cases hm
  · intro a ha
    rw [load_calls_append, inv.fresh a ha, ue.loads_eq]

/-- Lines 152-165 of `iconv_mod_load`: count the dependencies, run the load
callback, and either set the flag and return the instance or leave through
`bad:`. -/
theorem load_tail_inv (c : Consts) (w : World) {s s2 : State} {mod mod2 : iconv_module}
    {evs : List Event} {nd : List iconv_module}
    (inv : DepsInv s mod mod2 s2 evs nd) (hdl : mod.im_deplist = [])
    (haddr : mod.addr = s.brk) (mod3 : iconv_module)
    (hm3 : mod2.set_depcnt (count_deplist mod2.im_deplist mod2.im_depcnt) = mod3)
    (res : Except Int iconv_module) (s1 : State)
    (h : (if (ICONV_MOD_LOAD c mod3 s2).1 ≠ 0 then
        load_bad c w mod3 (ICONV_MOD_LOAD c mod3 s2).1 (ICONV_MOD_LOAD c mod3 s2).2
      else
        (some (.ok (mod3.set_flags (mod3.im_flags ||| c.ICMODF_LOADED))),
          (ICONV_MOD_LOAD c mod3 s2).2)) = (some res, s1)) :
    ∃ evs1, InstInv s mod res s1 evs1 := by
  have hf := push_deps_fields mod nd
  rw [← inv.mod_eq, hdl, List.append_nil] at hf
  have hf3 := set_depcnt_fields mod2 (count_deplist mod2.im_deplist mod2.im_depcnt)
  rw [hm3] at hf3
  have hdeps : mod3.im_deplist = nd := by rw [hf3.2.2.1, hf.2.2.1]
  have ha3 : mod3.addr = s.brk := by rw [hf3.1, hf.1, haddr]
  have hh3 : mod3.im_handle = mod.im_handle := by rw [hf3.2.1, hf.2.1]
  obtain ⟨ret, hret⟩ : ∃ ret, ICONV_MOD_LOAD c mod3 s2 =
      (ret, s2.emit (.mod_load mod3.addr (mod3.im_deplist.map iconv_module.addr) ret)) :=
    ⟨_, rfl⟩
  rw [hret] at h
  simp only at h
  have hord : ChildBeforeParent
      (evs ++ [Event.mod_load mod3.addr (mod3.im_deplist.map iconv_module.addr) ret]) := by
    apply childBeforeParent_snoc_load inv.ordered
    intro d hd
    rw [hdeps] at hd
    obtain ⟨dm, hdm, rfl⟩ := List.mem_map.1 hd
    exact inv.loaded_events dm hdm
  have hfresh : ∀ a, a < s.brk → load_calls a
      (evs ++ [Event.mod_load mod3.addr (mod3.im_deplist.map iconv_module.addr) ret]) = 0 := by
    intro a ha
    rw [load_calls_append, inv.fresh a (Nat.le_of_lt ha), ha3]
    have hne : ¬ s.brk = a := by omega
    simp [load_calls, hne]
  by_cases hr : ret ≠ 0
  · rw [if_pos hr] at h
    obtain ⟨uevs, hu, ue⟩ := load_bad_events c w mod3 ret
      (s2.emit (.mod_load mod3.addr (mod3.im_deplist.map iconv_module.addr) ret))
    rw [hu] at h
    simp only [Prod.mk.injEq, Option.some.injEq] at h
    obtain ⟨h1, h2⟩ := h
    subst h1 h2
    refine ⟨evs ++ [Event.mod_load mod3.addr (mod3.im_deplist.map iconv_module.addr) ret] ++
      uevs, ?_⟩
    constructor
    · simp only [emit_trace, inv.trace_eq, List.append_assoc]
    · exact inv.brk_le
    · exact childBeforeParent_append hord (childBeforeParent_of_no_load ue.loads_eq)
    · intro a ha
      rw [load_calls_append, hfresh a ha, ue.loads_eq]
    · intro h hh
      have b1 := inv.balance h hh
      have b2 : closes h uevs = holders h (instances mod3) := ue.closes_eq h hh
      rw [opens_append, closes_append, opens_append, closes_append, ue.opens_eq, b1, b2,
        holders_instances, hdeps, holders_singleton_congr h mod3 mod hh3]
      simp only [opens, closes, List.countP_cons, List.countP_nil]
      omega
    · intro m hm
      cases hm
    · intro e1 he1
      cases he1
      exact hr
    · intro m hm
      cases hm
    · intro m hm
      cases hm
  · rw [if_neg hr] at h
    have hr0 : ret = 0 := by
      by_contra hne
      exact hr hne
    subst hr0
    simp only [Prod.mk.injEq, Option.some.injEq] at h
    obtain ⟨h1, h2⟩ := h
    subst h1 h2
    have hff := set_flags_fields mod3 (mod3.im_flags ||| c.ICMODF_LOADED)
    refine ⟨evs ++ [Event.mod_load mod3.addr (mod3.im_deplist.map iconv_module.addr) 0], ?_⟩
    constructor
    · simp only [emit_trace, inv.trace_eq, List.append_assoc]
    · exact inv.brk_le
    · exact hord
    · exact hfresh
    · intro h hh
      have b1 := inv.balance h hh
      simp only
      rw [opens_append, closes_append, b1, holders_instances, hff.2.2.1, hdeps,
        holders_singleton_congr h _ mod (hff.2.1.trans hh3)]
      simp only [opens, closes, List.countP_cons, List.countP_nil]
      omega
    · intro m hm
      simp only [Except.ok.injEq] at hm
      subst hm
      exact ⟨evs, by rw [hff.1, hff.2.2.1]⟩
    · intro e1 he1
      cases he1
    · intro m hm
      simp only [Except.ok.injEq] at hm
      subst hm
      rw [hff.2.2.2.1, hff.2.2.1, hf3.2.2.2.1, hf3.2.2.1, count_deplist_eq, hf.2.2.2.1]
    · intro m hm
      simp only [Except.ok.injEq] at hm
      subst hm
      rw [hff.1, hf3.1, hf.1]


/-- The static part of lines 136-148: the loop, or nothing when `imd_depend` is
`NULL`. -/
theorem static_depends_inv (loader : Loader) (hl : LoaderOk loader) (mod : iconv_module)
    (s : State) (error : Int) (mod1 : iconv_module) (s1 : State)
    (h : load_static loader mod s = (some (error, mod1), s1)) :
    ∃ evs nd, DepsInv s mod mod1 s1 evs nd := by
  unfold load_static at h
  cases hd : mod.im_desc.imd_depend with
  | none =>
    rw [hd] at h
    simp only [Prod.mk.injEq, Option.some.injEq] at h
    obtain ⟨⟨-, h2⟩, h3⟩ := h
    subst h2 h3
    exact ⟨[], [], depsInv_refl _ _⟩
  | some depend =>
    rw [hd] at h
    obtain ⟨evs, nd, inv, -⟩ := load_depends_inv loader hl depend _ _ _ _ _ h
    exact ⟨evs, nd, inv⟩

theorem static_depends_cut (loader : Loader) (hl : LoaderOk loader) (mod : iconv_module)
    (s s1 : State) (h : load_static loader mod s = (none, s1)) :
    ∃ evs, TraceInv s s1 evs := by
  unfold load_static at h
  cases hd : mod.im_desc.imd_depend with
  | none =>
    rw [hd] at h
    simp at h
  | some depend =>
    rw [hd] at h
    exact load_depends_cut loader hl depend _ _ _ h

/-- Lines 136-165 of `iconv_mod_load` on a fresh instance, when they return. -/
theorem load_instance_inv (c : Consts) (w : World) (loader : Loader) (hl : LoaderOk loader)
    (mod : iconv_module) (s : State) (res : Except Int iconv_module) (s1 : State)
    (hdl : mod.im_deplist = []) (haddr : mod.addr = s.brk)
    (h : load_instance c w loader mod s = (some res, s1)) :
    ∃ evs, InstInv s mod res s1 evs := by
  unfold load_instance at h
  rcases hst : load_static loader mod s with ⟨r1, sa⟩
  rw [hst] at h
  cases r1 with
  | none => simp at h
  | some r1 =>
    obtain ⟨e1, mod1⟩ := r1
    simp only at h
    obtain ⟨evs1, nd1, inv1⟩ := static_depends_inv loader hl mod s e1 mod1 sa hst
    by_cases he1 : e1 ≠ 0
    · rw [if_pos he1] at h
      obtain ⟨evs, hinv, -⟩ := bad_exit_inv c w e1 he1 inv1 hdl
      simp only [load_bad, Prod.mk.injEq, Option.some.injEq] at h
      obtain ⟨h1, h2⟩ := h
      subst h1
      simp only [load_bad] at hinv
      rw [h2] at hinv
      exact ⟨evs, hinv⟩
    · rw [if_neg he1] at h
      rcases hdy : ICONV_MOD_DYNDEPS c loader mod1 sa with ⟨r2, sb⟩
      rw [hdy] at h
      cases r2 with
      | none => simp at h
      | some r2 =>
        obtain ⟨e2, mod2⟩ := r2
        simp only at h
        obtain ⟨evs2, nd2, inv2⟩ := dyndeps_inv c loader hl mod1 sa e2 mod2 sb hdy
        have inv := depsInv_trans inv1 inv2
        by_cases he2 : e2 ≠ 0
        · rw [if_pos he2] at h
          obtain ⟨evs, hinv, -⟩ := bad_exit_inv c w e2 he2 inv hdl
          simp only [load_bad, Prod.mk.injEq, Option.some.injEq] at h
          obtain ⟨h1, h2⟩ := h
          subst h1
          simp only [load_bad] at hinv
          rw [h2] at hinv
          exact ⟨evs, hinv⟩
        · rw [if_neg he2] at h
          exact load_tail_inv c w inv hdl haddr _ rfl res s1 h

/-- Lines 136-165 of `iconv_mod_load` on a fresh instance, when a recursive
call has not returned. -/
theorem load_instance_cut (c : Consts) (w : World) (loader : Loader) (hl : LoaderOk loader)
    (mod : iconv_module) (s s1 : State)
    (h : load_instance c w loader mod s = (none, s1)) :
    ∃ evs, TraceInv s s1 evs := by
  unfold load_instance at h
  rcases hst : load_static loader mod s with ⟨r1, sa⟩
  rw [hst] at h
  cases r1 with
  | none =>
    simp only [Prod.mk.injEq, true_and] at h
    subst h
    exact static_depends_cut loader hl mod s _ hst
  | some r1 =>
    obtain ⟨e1, mod1⟩ := r1
    simp only at h
    obtain ⟨evs1, nd1, inv1⟩ := static_depends_inv loader hl mod s e1 mod1 sa hst
    by_cases he1 : e1 ≠ 0
    · rw [if_pos he1] at h
      simp [load_bad] at h
    · rw [if_neg he1] at h
      rcases hdy : ICONV_MOD_DYNDEPS c loader mod1 sa with ⟨r2, sb⟩
      rw [hdy] at h
      cases r2 with
      | none =>
        simp only [Prod.mk.injEq, true_and] at h
        subst h
        obtain ⟨evs2, inv2⟩ := dyndeps_cut c loader hl mod1 sa _ hdy
        exact ⟨evs1 ++ evs2, traceInv_trans (traceInv_of_depsInv inv1) inv2⟩
      | some r2 =>
        obtain ⟨e2, mod2⟩ := r2
        simp only at h
        by_cases he2 : e2 ≠ 0
        · rw [if_pos he2] at h
          simp [load_bad] at h
        · rw [if_neg he2] at h
          split at h <;> simp [load_bad] at h
theorem iconv_dlopen_cases (w : World) (name symbol : List Char) (s : State) :
    (w.dlopen name s.trace = 0 ∧
      iconv_dlopen w name symbol s = (.error EINVAL, s.emit (.dlopen name 0))) ∨
    (w.dlopen name s.trace ≠ 0 ∧ w.dlsym (w.dlopen name s.trace) symbol = none ∧
      iconv_dlopen w name symbol s = (.error EINVAL,
        ⟨s.trace ++ [.dlopen name (w.dlopen name s.trace),
          .dlclose (w.dlopen name s.trace)
            (w.dlclose (w.dlopen name s.trace)
              (s.trace ++ [.dlopen name (w.dlopen name s.trace)]))], s.brk⟩)) ∨
    (w.dlopen name s.trace ≠ 0 ∧ ∃ data, w.dlsym (w.dlopen name s.trace) symbol = some data ∧
      iconv_dlopen w name symbol s =
        (.ok (w.dlopen name s.trace, data), s.emit (.dlopen name (w.dlopen name s.trace)))) := by
  unfold iconv_dlopen
  by_cases h0 : w.dlopen name s.trace = 0
  · left
    simp [h0]
  · right
    cases hs : w.dlsym (w.dlopen name s.trace) symbol with
    | none =>
      left
      simp [h0, hs, dlclose, State.emit]
    | some data =>
      right
      simp [h0, hs]


/-- Lines 118-135 of `iconv_mod_load`, all outcomes: the return at line 119
(nothing happened), a failed `iconv_dlopen`, the type mismatch, the failed
allocation, or a fresh instance. -/
theorem load_alloc_cases (c : Consts) (w : World) (modname : List Char) (modtype : Int)
    (args : Ptr) (s : State) (res : Except Int iconv_module) (s1 : State)
    (h : load_alloc c w modname modtype args s = (some res, s1)) :
    ∃ rc buffer, iconv_getpath c (w.env s.trace) [] modname = some (rc, buffer) ∧
    ((rc ≠ 0 ∧ res = .error EINVAL ∧ s1 = s) ∨
     (rc = 0 ∧ w.dlopen buffer s.trace = 0 ∧ res = .error EINVAL ∧
        s1 = ⟨s.trace ++ [.dlopen buffer 0], s.brk⟩) ∨
     (rc = 0 ∧ ∃ handle, handle ≠ 0 ∧ w.dlopen buffer s.trace = handle ∧
        ((w.dlsym handle "iconv_module".toList = none ∧ res = .error EINVAL ∧
          ∃ r, s1 = ⟨s.trace ++ [.dlopen buffer handle, .dlclose handle r], s.brk⟩) ∨
         (∃ mdesc, w.dlsym handle "iconv_module".toList = some mdesc ∧
          ((modtype ≠ c.ICMOD_ANY ∧ mdesc.imd_type ≠ modtype ∧ res = .error EFTYPE ∧
            ∃ r, s1 = ⟨s.trace ++ [.dlopen buffer handle, .dlclose handle r], s.brk⟩) ∨
           (¬ (modtype ≠ c.ICMOD_ANY ∧ mdesc.imd_type ≠ modtype) ∧
            w.malloc_ok (s.trace ++ [.dlopen buffer handle]) = false ∧ res = .error ENOMEM ∧
            ∃ r, s1 = ⟨s.trace ++ [.dlopen buffer handle, .malloc 0, .dlclose handle r],
              s.brk⟩) ∨
           (¬ (modtype ≠ c.ICMOD_ANY ∧ mdesc.imd_type ≠ modtype) ∧
            w.malloc_ok (s.trace ++ [.dlopen buffer handle]) = true ∧
            res = .ok (.mk (s.brk + 1) 0 handle mdesc [] 0 0 args) ∧
            s1 = ⟨s.trace ++ [.dlopen buffer handle, .malloc (s.brk + 1)], s.brk + 1⟩)))))) := by
  unfold load_alloc at h
  cases hp : iconv_getpath c (w.env s.trace) [] modname with
  | none => rw [hp] at h; simp at h
  | some r =>
    obtain ⟨rc, buffer⟩ := r
    rw [hp] at h
    simp only at h
    refine ⟨rc, buffer, rfl, ?_⟩
    by_cases hrc : rc ≠ 0
    · rw [if_pos hrc] at h
      simp only [Option.some.injEq, Prod.mk.injEq] at h
      exact Or.inl ⟨hrc, h.1.symm, h.2.symm⟩
    · rw [if_neg hrc] at h
      have hrc0 : rc = 0 := by
        by_contra hne
        exact hrc hne
      right
      rcases iconv_dlopen_cases w buffer "iconv_module".toList s with
        ⟨h0, hd⟩ | ⟨h0, hsym, hd⟩ | ⟨h0, data, hsym, hd⟩
      · rw [hd] at h
        simp only [Option.some.injEq, Prod.mk.injEq] at h
        exact Or.inl ⟨hrc0, h0, h.1.symm, by rw [← h.2]; rfl⟩
      · rw [hd] at h
        simp only [Option.some.injEq, Prod.mk.injEq] at h
        exact Or.inr ⟨hrc0, _, h0, rfl, Or.inl ⟨hsym, h.1.symm, _, h.2.symm⟩⟩
      · rw [hd] at h
        simp only at h
        refine Or.inr ⟨hrc0, _, h0, rfl, Or.inr ⟨data, hsym, ?_⟩⟩
        by_cases ht : modtype ≠ c.ICMOD_ANY ∧ data.imd_type ≠ modtype
        · rw [if_pos ht] at h
          simp only [Option.some.injEq, Prod.mk.injEq] at h
          refine Or.inl ⟨ht.1, ht.2, h.1.symm,
            w.dlclose (w.dlopen buffer s.trace)
              (s.trace ++ [.dlopen buffer (w.dlopen buffer s.trace)]), ?_⟩
          rw [← h.2]
          simp [dlclose, State.emit]
        · rw [if_neg ht] at h
          right
          cases hm : w.malloc_ok (s.trace ++ [.dlopen buffer (w.dlopen buffer s.trace)]) with
          | false =>
            simp only [emit_trace, hm, Bool.not_false, if_true, Option.some.injEq,
              Prod.mk.injEq] at h
            refine Or.inl ⟨ht, rfl, h.1.symm,
              w.dlclose (w.dlopen buffer s.trace)
                (s.trace ++ [.dlopen buffer (w.dlopen buffer s.trace), .malloc 0]), ?_⟩
            rw [← h.2]
            simp [dlclose, State.emit]
          | true =>
            simp only [emit_trace, hm, Bool.not_true, Bool.false_eq_true, if_false,
              Option.some.injEq, Prod.mk.injEq] at h
            refine Or.inr ⟨ht, rfl, ?_, ?_⟩
            · rw [← h.1]
              rfl
            · rw [← h.2]
              simp [State.emit]

/-- A trace without load callbacks in which the opens and the closes of every
non-null handle balance is the trace of a failed load that allocated
nothing. -/
theorem loadInv_of_balanced (s : State) (e : Int) (evs : List Event) (he : e ≠ 0)
    (hl : ∀ a, load_calls a evs = 0) (hb : ∀ h, h ≠ 0 → opens h evs = closes h evs) :
    LoadInv s (.error e) ⟨s.trace ++ evs, s.brk⟩ evs where
  trace_eq := rfl
  brk_le := Nat.le_refl _
  ordered := childBeforeParent_of_no_load hl
  fresh := fun a _ => hl a
  balance := by
    intro h hh
    simp only [hb h hh, Nat.add_zero]
  loaded_event := by intro m hm; cases hm
  error_ne := by intro e1 he1; cases he1; exact he

theorem load_alloc_error_inv (c : Consts) (w : World) (modname : List Char) (modtype : Int)
    (args : Ptr) (s : State) (e : Int) (s1 : State)
    (h : load_alloc c w modname modtype args s = (some (.error e), s1)) :
    ∃ evs, LoadInv s (.error e) s1 evs := by
  obtain ⟨rc, buffer, -, hc⟩ := load_alloc_cases c w modname modtype args s _ _ h
  have hinv : (22 : Int) ≠ 0 := by decide
  rcases hc with ⟨-, hres, hs⟩ | ⟨-, -, hres, hs⟩ | ⟨-, handle, hh, -, hc⟩
  · cases hres
    rw [hs]
    have := loadInv_of_balanced s EINVAL [] hinv (by intro a; simp [load_calls])
      (by intro h _; simp [opens, closes])
    simp only [List.append_nil] at this
    exact ⟨[], this⟩
  · cases hres
    subst hs
    exact ⟨_, loadInv_of_balanced s EINVAL _ hinv (by intro a; simp [load_calls])
      (by intro h hh; simp [opens, closes, Ne.symm hh])⟩
  · rcases hc with ⟨-, hres, r, hs⟩ | ⟨mdesc, -, hc⟩
    · cases hres
      subst hs
      exact ⟨_, loadInv_of_balanced s EINVAL _ hinv (by intro a; simp [load_calls])
        (by intro h _; simp [opens, closes, List.countP_cons])⟩
    · rcases hc with ⟨-, -, hres, r, hs⟩ | ⟨-, -, hres, r, hs⟩ | ⟨-, -, hres, -⟩
      · cases hres
        subst hs
        exact ⟨_, loadInv_of_balanced s EFTYPE _ (by decide) (by intro a; simp [load_calls])
          (by intro h _; simp [opens, closes, List.countP_cons])⟩
      · cases hres
        subst hs
        exact ⟨_, loadInv_of_balanced s ENOMEM _ (by decide) (by intro a; simp [load_calls])
          (by intro h _; simp [opens, closes, List.countP_cons])⟩
      · cases hres

theorem load_alloc_ok_eq (c : Consts) (w : World) (modname : List Char) (modtype : Int)
    (args : Ptr) (s : State) (mod : iconv_module) (s1 : State)
    (h : load_alloc c w modname modtype args s = (some (.ok mod), s1)) :
    ∃ buffer, mod.im_handle ≠ 0 ∧ mod.addr = s.brk + 1 ∧ mod.im_deplist = [] ∧
      mod.im_depcnt = 0 ∧ mod.im_flags = 0 ∧ mod.im_args = args ∧
      w.dlsym mod.im_handle "iconv_module".toList = some mod.im_desc ∧
      s1 = ⟨s.trace ++ [.dlopen buffer mod.im_handle, .malloc mod.addr], s.brk + 1⟩ := by
  obtain ⟨rc, buffer, -, hc⟩ := load_alloc_cases c w modname modtype args s _ _ h
  rcases hc with ⟨-, hres, -⟩ | ⟨-, -, hres, -⟩ | ⟨-, handle, hh, -, hc⟩
  · cases hres
  · cases hres
  · rcases hc with ⟨-, hres, -⟩ | ⟨mdesc, hsym, hc⟩
    · cases hres
    · rcases hc with ⟨-, -, hres, -⟩ | ⟨-, -, hres, -⟩ | ⟨-, -, hres, hs⟩
      · cases hres
      · cases hres
      · simp only [Except.ok.injEq] at hres
        subst hres
        exact ⟨buffer, hh, rfl, rfl, rfl, rfl, rfl, hsym, hs⟩

/-- A fresh instance, then lines 136-165: the invariant of the whole call. -/
theorem loadInv_of_inst {s s2 s1 : State} {mod : iconv_module} {res : Except Int iconv_module}
    {evs : List Event} (buffer : List Char)
    (hs2 : s2 = ⟨s.trace ++ [.dlopen buffer mod.im_handle, .malloc mod.addr], s.brk + 1⟩)
    (inv : InstInv s2 mod res s1 evs) :
    LoadInv s res s1 ([.dlopen buffer mod.im_handle, .malloc mod.addr] ++ evs) where
  trace_eq := by rw [inv.trace_eq, hs2, List.append_assoc]
  brk_le := by
    have := inv.brk_le
    rw [hs2] at this
    simp only at this
    omega
  ordered := childBeforeParent_append
    (childBeforeParent_of_no_load (by intro a; simp [load_calls])) inv.ordered
  fresh := by
    intro a ha
    rw [load_calls_append, inv.fresh a (by rw [hs2]; simp only; omega)]
    simp [load_calls]
  balance := by
    intro h hx
    have b := inv.balance h hx
    rw [opens_append, closes_append]
    revert b
    by_cases e : mod.im_handle = h
    · simp [opens, closes, holders, List.countP_cons, e]
      omega
    · simp [opens, closes, holders, List.countP_cons, e]
  loaded_event := by
    intro m hm
    obtain ⟨pre, hp⟩ := inv.loaded_event m hm
    exact ⟨[.dlopen buffer mod.im_handle, .malloc mod.addr] ++ pre, by rw [hp, List.append_assoc]⟩
  error_ne := inv.error_ne

theorem load_alloc_none (c : Consts) (w : World) (modname : List Char) (modtype : Int)
    (args : Ptr) (s s1 : State) (h : load_alloc c w modname modtype args s = (none, s1)) :
    s1 = s := by
  unfold load_alloc at h
  cases hp : iconv_getpath c (w.env s.trace) [] modname with
  | none =>
    rw [hp] at h
    simp only [Prod.mk.injEq, true_and] at h
    exact h.symm
  | some r =>
    obtain ⟨rc, buffer⟩ := r
    rw [hp] at h
    simp only at h
    split at h
    · simp at h
    · split at h
      · simp at h
      · split at h
        · simp at h
        · split at h <;> simp at h

/-- Every call of `iconv_mod_load`, at every bound on the depth, satisfies
`LoadInv` when it returns and `TraceInv` when it has not returned. -/
theorem iconv_mod_load_ok (c : Consts) (w : World) :
    ∀ fuel, LoaderOk (iconv_mod_load c w fuel)
  | 0 => by
    intro name type args s
    constructor
    · intro res s1 h
      simp [iconv_mod_load] at h
    · intro s1 h
      simp only [iconv_mod_load, Prod.mk.injEq, true_and] at h
      subst h
      exact ⟨[], traceInv_refl s⟩
  | fuel + 1 => by
    intro name type args s
    constructor
    · intro res s1 h
      simp only [iconv_mod_load] at h
      rcases ha : load_alloc c w name type args s with ⟨r1, s2⟩
      rw [ha] at h
      cases r1 with
      | none => simp at h
      | some r1 =>
        cases r1 with
        | error e =>
          simp only [Prod.mk.injEq, Option.some.injEq] at h
          obtain ⟨h1, h2⟩ := h
          subst h1 h2
          exact load_alloc_error_inv c w name type args s e s2 ha
        | ok mod =>
          simp only at h
          obtain ⟨buffer, hh, haddr, hdl, -, -, -, -, hs2⟩ :=
            load_alloc_ok_eq c w name type args s mod s2 ha
          obtain ⟨evs, inv⟩ := load_instance_inv c w _ (iconv_mod_load_ok c w fuel) mod s2 res s1
            hdl (by rw [haddr, hs2]) h
          exact ⟨_, loadInv_of_inst buffer hs2 inv⟩
    · intro s1 h
      simp only [iconv_mod_load] at h
      rcases ha : load_alloc c w name type args s with ⟨r1, s2⟩
      rw [ha] at h
      cases r1 with
      | none =>
        simp only [Prod.mk.injEq, true_and] at h
        subst h
        rw [load_alloc_none c w name type args s s2 ha]
        exact ⟨[], traceInv_refl s⟩
      | some r1 =>
        cases r1 with
        | error e => simp at h
        | ok mod =>
          simp only at h
          obtain ⟨buffer, hh, haddr, hdl, -, -, -, -, hs2⟩ :=
            load_alloc_ok_eq c w name type args s mod s2 ha
          obtain ⟨evs, inv⟩ := load_instance_cut c w _ (iconv_mod_load_ok c w fuel) mod s2 s1 h
          have h0 : TraceInv s s2 [.dlopen buffer mod.im_handle, .malloc mod.addr] := by
            constructor
            · rw [hs2]
            · rw [hs2]
              simp only
              omega
            · exact childBeforeParent_of_no_load (by intro a; simp [load_calls])
            · intro a _
              simp [load_calls]
          exact ⟨_, traceInv_trans h0 inv⟩

theorem load_depends_append (loader : Loader) (hl : LoaderOk loader)
    (pre rest : List iconv_module_depend) :
    ∀ (mod : iconv_module) (s : State) (mod1 : iconv_module) (s1 : State),
      load_depends loader pre mod s = (some (0, mod1), s1) →
      load_depends loader (pre ++ rest) mod s = load_depends loader rest mod1 s1 := by
  induction pre with
  | nil =>
    intro mod s mod1 s1 h
    simp only [load_depends, Prod.mk.injEq, Option.some.injEq, true_and] at h
    obtain ⟨h1, h2⟩ := h
    subst h1 h2
    rfl
  | cons d pre ih =>
    intro mod s mod1 s1 h
    simp only [load_depends, List.cons_append] at h ⊢
    rcases hld : loader d.md_name d.md_type 0 s with ⟨res, s2⟩
    rw [hld] at h
    cases res with
    | none => simp at h
    | some res =>
      cases res with
      | error e =>
        simp only [Prod.mk.injEq, Option.some.injEq] at h
        obtain ⟨evs, inv⟩ := (hl _ _ _ _).1 _ _ hld
        exact absurd h.1.1 (inv.error_ne e rfl)
      | ok dm =>
        simp only at h ⊢
        exact ih _ _ _ _ h

/-- The static loop when the entry `d`, reached after the entries `pre` were all
loaded and attached, fails to load with the code `e`: the loop is left with
`error = e`. -/
theorem load_static_fail (loader : Loader) (hl : LoaderOk loader) (mod : iconv_module)
    (s2 : State) (pre : List iconv_module_depend) (d : iconv_module_depend)
    (post : List iconv_module_depend) (mod1 : iconv_module) (s3 : State) (e : Int) (s4 : State)
    (hdep : mod.im_desc.imd_depend = some (pre ++ d :: post))
    (hpre : load_depends loader pre mod s2 = (some (0, mod1), s3))
    (hfail : loader d.md_name d.md_type 0 s3 = (some (.error e), s4)) :
    load_static loader mod s2 = (some (e, mod1), s4) ∧ e ≠ 0 := by
  constructor
  · unfold load_static
    rw [hdep]
    simp only
    rw [load_depends_append loader hl pre (d :: post) mod s2 mod1 s3 hpre]
    simp only [load_depends, hfail]
  · obtain ⟨evs, inv⟩ := (hl _ _ _ _).1 _ _ hfail
    exact inv.error_ne e rfl

theorem load_instance_static_fail (c : Consts) (w : World) (loader : Loader)
    (mod mod1 : iconv_module) (s2 s4 : State) (e : Int)
    (h : load_static loader mod s2 = (some (e, mod1), s4)) (he : e ≠ 0) :
    load_instance c w loader mod s2 = load_bad c w mod1 e s4 := by
  unfold load_instance
  rw [h]
  simp only [he, ne_eq, not_false_eq_true, if_true]

theorem load_instance_dyndeps_fail (c : Consts) (w : World) (loader : Loader)
    (mod mod1 mod2 : iconv_module) (s2 s3 s4 : State) (e : Int)
    (h : load_static loader mod s2 = (some (0, mod1), s3))
    (hd : ICONV_MOD_DYNDEPS c loader mod1 s3 = (some (e, mod2), s4)) (he : e ≠ 0) :
    load_instance c w loader mod s2 = load_bad c w mod2 e s4 := by
  unfold load_instance
  rw [h]
  simp only [ne_eq, not_true_eq_false, if_false, hd, he, not_false_eq_true, if_true]

theorem iconv_mod_load_succ (c : Consts) (w : World) (fuel : Nat) (modname : List Char)
    (modtype : Int) (args : Ptr) (s : State) (mod : iconv_module) (s2 : State)
    (halloc : load_alloc c w modname modtype args s = (some (.ok mod), s2)) :
    iconv_mod_load c w (fuel + 1) modname modtype args s =
      load_instance c w (iconv_mod_load c w fuel) mod s2 := by
  simp only [iconv_mod_load, halloc]

/-- A load that leaves through `bad:` before the load callback of the root
instance could run: the callback was not invoked. -/
theorem bad_exit_no_load (c : Consts) (w : World) (modname : List Char) (modtype : Int)
    (args : Ptr) (s s2 sk : State) (mod modk : iconv_module) (evs : List Event)
    (nd : List iconv_module) (e : Int) (he : e ≠ 0)
    (halloc : load_alloc c w modname modtype args s = (some (.ok mod), s2))
    (inv : DepsInv s2 mod modk sk evs nd) :
    load_calls mod.addr (new_events s (load_bad c w modk e sk).2) = 0 := by
  obtain ⟨buffer, -, haddr, hdl, -, -, -, -, hs2⟩ :=
    load_alloc_ok_eq c w modname modtype args s mod s2 halloc
  obtain ⟨evs1, hinv, hfresh⟩ := bad_exit_inv c w e he inv hdl
  have ht : (load_bad c w modk e sk).2.trace =
      s.trace ++ ([.dlopen buffer mod.im_handle, .malloc mod.addr] ++ evs1) := by
    rw [hinv.trace_eq, hs2, List.append_assoc]
  rw [new_events_append s _ _ ht, load_calls_append, hfresh mod.addr (by rw [haddr, hs2])]
  simp [load_calls]

theorem load_depends_mono (l1 l2 : Loader) (hle : LoaderLe l1 l2) :
    ∀ (depend : List iconv_module_depend) (mod : iconv_module) (s : State)
      (r : Int × iconv_module) (s1 : State),
      load_depends l1 depend mod s = (some r, s1) → load_depends l2 depend mod s = (some r, s1)
  | [], mod, s, r, s1, h => by
    simpa [load_depends] using h
  | d :: rest, mod, s, r, s1, h => by
    simp only [load_depends] at h ⊢
    rcases hld : l1 d.md_name d.md_type 0 s with ⟨res, s2⟩
    rw [hld] at h
    cases res with
    | none => simp at h
    | some res =>
      rw [hle _ _ _ _ _ _ hld]
      cases res with
      | error e => exact h
      | ok dm => exact load_depends_mono l1 l2 hle rest _ _ _ _ h

theorem run_dyndeps_mono (l1 l2 : Loader) (hle : LoaderLe l1 l2) :
    ∀ (script : DynDeps) (mod : iconv_module) (s : State)
      (r : Int × iconv_module) (s1 : State),
      run_dyndeps l1 script mod s = (some r, s1) → run_dyndeps l2 script mod s = (some r, s1)
  | .done ret, mod, s, r, s1, h => by
    simpa [run_dyndeps] using h
  | .load name type args next, mod, s, r, s1, h => by
    simp only [run_dyndeps] at h ⊢
    rcases hld : l1 name type args s with ⟨res, s2⟩
    rw [hld] at h
    cases res with
    | none => simp at h
    | some res =>
      rw [hle _ _ _ _ _ _ hld]
      cases res with
      | error e => exact run_dyndeps_mono l1 l2 hle (next e) _ _ _ _ h
      | ok dm => exact run_dyndeps_mono l1 l2 hle (next 0) _ _ _ _ h

theorem dyndeps_mono (c : Consts) (l1 l2 : Loader) (hle : LoaderLe l1 l2)
    (mod : iconv_module) (s : State) (r : Int × iconv_module) (s1 : State)
    (h : ICONV_MOD_DYNDEPS c l1 mod s = (some r, s1)) :
    ICONV_MOD_DYNDEPS c l2 mod s = (some r, s1) := by
  unfold ICONV_MOD_DYNDEPS at h ⊢
  cases hd : mod.im_desc.imd_dyndeps with
  | none =>
    rw [hd] at h
    exact h
  | some f =>
    rw [hd] at h
    simp only at h ⊢
    rcases hr : run_dyndeps l1 (f mod.im_args s.trace) mod s with ⟨r1, s2⟩
    rw [hr] at h
    cases r1 with
    | none => simp at h
    | some r1 =>
      rw [run_dyndeps_mono l1 l2 hle _ _ _ _ _ hr]
      exact h

theorem load_static_mono (l1 l2 : Loader) (hle : LoaderLe l1 l2)
    (mod : iconv_module) (s : State) (r : Int × iconv_module) (s1 : State)
    (h : load_static l1 mod s = (some r, s1)) : load_static l2 mod s = (some r, s1) := by
  unfold load_static at h ⊢
  cases hd : mod.im_desc.imd_depend with
  | none =>
    rw [hd] at h
    exact h
  | some depend =>
    rw [hd] at h
    exact load_depends_mono l1 l2 hle depend _ _ _ _ h

theorem load_instance_mono (c : Consts) (w : World) (l1 l2 : Loader) (hle : LoaderLe l1 l2)
    (mod : iconv_module) (s : State) (r : Except Int iconv_module) (s1 : State)
    (h : load_instance c w l1 mod s = (some r, s1)) :
    load_instance c w l2 mod s = (some r, s1) := by
  unfold load_instance at h ⊢
  rcases hst : load_static l1 mod s with ⟨r1, sa⟩
  rw [hst] at h
  cases r1 with
  | none => simp at h
  | some r1 =>
    rw [load_static_mono l1 l2 hle _ _ _ _ hst]
    obtain ⟨e1, mod1⟩ := r1
    simp only at h ⊢
    by_cases he1 : e1 ≠ 0
    · rw [if_pos he1] at h ⊢
      exact h
    · rw [if_neg he1] at h ⊢
      rcases hdy : ICONV_MOD_DYNDEPS c l1 mod1 sa with ⟨r2, sb⟩
      rw [hdy] at h
      cases r2 with
      | none => simp at h
      | some r2 =>
        rw [dyndeps_mono c l1 l2 hle _ _ _ _ hdy]
        exact h

/-- One more level of recursion depth changes no result that was returned. -/
theorem iconv_mod_load_mono_succ (c : Consts) (w : World) :
    ∀ fuel, LoaderLe (iconv_mod_load c w fuel) (iconv_mod_load c w (fuel + 1))
  | 0 => by
    intro name type args s r s1 h
    simp [iconv_mod_load] at h
  | fuel + 1 => by
    intro name type args s r s1 h
    rw [iconv_mod_load] at h ⊢
    rcases ha : load_alloc c w name type args s with ⟨r1, s2⟩
    rw [ha] at h
    cases r1 with
    | none => simp at h
    | some res =>
      cases res with
      | error e => exact h
      | ok mod =>
        simp only at h ⊢
        exact load_instance_mono c w _ _ (iconv_mod_load_mono_succ c w fuel) _ _ _ _ h

/-- The bound on the recursion depth does not influence the result: a call
that returns at the bound `fuel` returns the same result, in the same state,
at every larger bound. -/
theorem iconv_mod_load_mono (c : Consts) (w : World) (fuel k : Nat) :
    LoaderLe (iconv_mod_load c w fuel) (iconv_mod_load c w (fuel + k)) := by
  induction k with
  | zero =>
    intro name type args s r s1 h
    exact h
  | succ k ih =>
    intro name type args s r s1 h
    exact iconv_mod_load_mono_succ c w (fuel + k) _ _ _ _ _ _ (ih _ _ _ _ _ _ h)

/-! ## Load: C1, C2, C3, C7 -/

/-- C1: when a module resolves, opens, passes the type check and is allocated,
and its static dependency list holds an entry `d` whose recursive
`iconv_mod_load` fails with the code `e` after all the entries before it were
loaded, then `iconv_mod_load` on the module returns exactly `e` (at every
recursion bound above the one at which the dependency returned), and in the
trace of the call every non-null handle was closed by `dlclose` as many times
as `dlopen` returned it: the handle of the root, those of the dependencies
already attached and those of their own dependencies. -/
theorem load_dependency_failure (c : Consts) (w : World) (fuel : Nat) (modname : List Char)
    (modtype : Int) (args : Ptr) (s s2 s3 s4 : State) (mod mod1 : iconv_module)
    (pre : List iconv_module_depend) (d : iconv_module_depend)
    (post : List iconv_module_depend) (e : Int)
    (halloc : load_alloc c w modname modtype args s = (some (.ok mod), s2))
    (hdep : mod.im_desc.imd_depend = some (pre ++ d :: post))
    (hpre : load_depends (iconv_mod_load c w fuel) pre mod s2 = (some (0, mod1), s3))
    (hfail : iconv_mod_load c w fuel d.md_name d.md_type 0 s3 = (some (.error e), s4)) :
    ∃ s1, (∀ k, iconv_mod_load c w (fuel + 1 + k) modname modtype args s =
        (some (.error e), s1)) ∧
      s1.trace = s.trace ++ new_events s s1 ∧
      0 < opens mod.im_handle (new_events s s1) ∧
      (∀ h, h ≠ 0 → opens h (new_events s s1) = closes h (new_events s s1)) := by
  have hl := iconv_mod_load_ok c w fuel
  obtain ⟨hst, he⟩ := load_static_fail _ hl mod s2 pre d post mod1 s3 e s4 hdep hpre hfail
  have hres : iconv_mod_load c w (fuel + 1) modname modtype args s =
      (some (.error e), (load_bad c w mod1 e s4).2) := by
    rw [iconv_mod_load_succ c w fuel modname modtype args s mod s2 halloc,
      load_instance_static_fail c w _ mod mod1 s2 s4 e hst he]
    rfl
  obtain ⟨evs, inv⟩ := (iconv_mod_load_ok c w (fuel + 1) _ _ _ _).1 _ _ hres
  have hn := new_events_append s _ evs inv.trace_eq
  refine ⟨_, fun k => iconv_mod_load_mono c w (fuel + 1) k _ _ _ _ _ _ hres, ?_, ?_, ?_⟩
  · rw [hn]
    exact inv.trace_eq
  · obtain ⟨buffer, -, -, -, -, -, -, -, hs2⟩ :=
      load_alloc_ok_eq c w modname modtype args s mod s2 halloc
    obtain ⟨evs1, nd, dinv, -⟩ := load_depends_inv _ hl (pre ++ d :: post) mod s2 e mod1 s4
      (by unfold load_static at hst; rw [hdep] at hst; exact hst)
    obtain ⟨uevs, hu, -⟩ := load_bad_events c w mod1 e s4
    have ht : (load_bad c w mod1 e s4).2.trace =
        s.trace ++ ([.dlopen buffer mod.im_handle, .malloc mod.addr] ++ (evs1 ++ uevs)) := by
      rw [hu]
      simp only [dinv.trace_eq, hs2, List.append_assoc]
    rw [new_events_append s _ _ ht, opens_append]
    simp [opens, List.countP_cons]
  · rw [hn]
    intro h hh
    have := inv.balance h hh
    simpa using this


/-- C2: in every execution of `iconv_mod_load`, returned or cut off at any
bound on the recursion depth, every invocation of a load callback comes after
a successful invocation of the load callback of each instance in the
dependency list of its instance (static and dynamic dependencies alike); a
successful load ends with the successful load callback of the instance it
returns; and the load callback of the instance is not invoked at all when one
of its static dependencies fails to load, or when its dynamic-dependency
callback reports a failure. -/
theorem load_child_before_parent (c : Consts) (w : World) (fuel : Nat) (modname : List Char)
    (modtype : Int) (args : Ptr) (s : State) :
    (iconv_mod_load c w fuel modname modtype args s).2.trace =
      s.trace ++ new_events s (iconv_mod_load c w fuel modname modtype args s).2 ∧
    ChildBeforeParent (new_events s (iconv_mod_load c w fuel modname modtype args s).2) ∧
    (∀ mod, (iconv_mod_load c w fuel modname modtype args s).1 = some (.ok mod) →
      ∃ pre, new_events s (iconv_mod_load c w fuel modname modtype args s).2 =
        pre ++ [Event.mod_load mod.addr (mod.im_deplist.map iconv_module.addr) 0]) ∧
    (∀ fuel0 mod s2 pre d post mod1 s3 e s4, fuel = fuel0 + 1 →
      load_alloc c w modname modtype args s = (some (.ok mod), s2) →
      mod.im_desc.imd_depend = some (pre ++ d :: post) →
      load_depends (iconv_mod_load c w fuel0) pre mod s2 = (some (0, mod1), s3) →
      iconv_mod_load c w fuel0 d.md_name d.md_type 0 s3 = (some (.error e), s4) →
      load_calls mod.addr
        (new_events s (iconv_mod_load c w fuel modname modtype args s).2) = 0) ∧
    (∀ fuel0 mod s2 mod1 s3 e mod2 s4, fuel = fuel0 + 1 →
      load_alloc c w modname modtype args s = (some (.ok mod), s2) →
      load_static (iconv_mod_load c w fuel0) mod s2 = (some (0, mod1), s3) →
      ICONV_MOD_DYNDEPS c (iconv_mod_load c w fuel0) mod1 s3 = (some (e, mod2), s4) →
      e ≠ 0 →
      load_calls mod.addr
        (new_events s (iconv_mod_load c w fuel modname modtype args s).2) = 0) := by
  have hti : ∃ evs, TraceInv s (iconv_mod_load c w fuel modname modtype args s).2 evs ∧
      (∀ mod, (iconv_mod_load c w fuel modname modtype args s).1 = some (.ok mod) →
        ∃ pre, evs = pre ++ [Event.mod_load mod.addr (mod.im_deplist.map iconv_module.addr) 0]) := by
    rcases hr : iconv_mod_load c w fuel modname modtype args s with ⟨r, s1⟩
    cases r with
    | none =>
      obtain ⟨evs, inv⟩ := (iconv_mod_load_ok c w fuel _ _ _ _).2 _ hr
      exact ⟨evs, inv, by intro mod hm; cases hm⟩
    | some res =>
      obtain ⟨evs, inv⟩ := (iconv_mod_load_ok c w fuel _ _ _ _).1 _ _ hr
      refine ⟨evs, traceInv_of_loadInv inv, ?_⟩
      intro mod hm
      simp only [Option.some.injEq] at hm
      exact inv.loaded_event mod hm
  obtain ⟨evs, inv, hlast⟩ := hti
  have hn := new_events_append s _ evs inv.trace_eq
  refine ⟨by rw [hn]; exact inv.trace_eq, by rw [hn]; exact inv.ordered,
    by rw [hn]; exact hlast, ?_, ?_⟩
  · intro fuel0 mod s2 pre d post mod1 s3 e s4 hfuel halloc hdep hpre hfail
    subst hfuel
    have hl := iconv_mod_load_ok c w fuel0
    obtain ⟨hst, he⟩ := load_static_fail _ hl mod s2 pre d post mod1 s3 e s4 hdep hpre hfail
    have hres : iconv_mod_load c w (fuel0 + 1) modname modtype args s =
        load_bad c w mod1 e s4 := by
      rw [iconv_mod_load_succ c w fuel0 modname modtype args s mod s2 halloc,
        load_instance_static_fail c w _ mod mod1 s2 s4 e hst he]
    obtain ⟨evs1, nd, dinv⟩ := static_depends_inv _ hl mod s2 e mod1 s4 hst
    rw [hres]
    exact bad_exit_no_load c w modname modtype args s s2 s4 mod mod1 evs1 nd e he halloc dinv
  · intro fuel0 mod s2 mod1 s3 e mod2 s4 hfuel halloc hst hdy he
    subst hfuel
    have hl := iconv_mod_load_ok c w fuel0
    have hres : iconv_mod_load c w (fuel0 + 1) modname modtype args s =
        load_bad c w mod2 e s4 := by
      rw [iconv_mod_load_succ c w fuel0 modname modtype args s mod s2 halloc,
        load_instance_dyndeps_fail c w _ mod mod1 mod2 s2 s3 s4 e hst hdy he]
    obtain ⟨evs1, nd1, dinv1⟩ := static_depends_inv _ hl mod s2 0 mod1 s3 hst
    obtain ⟨evs2, nd2, dinv2⟩ := dyndeps_inv c _ hl mod1 s3 e mod2 s4 hdy
    rw [hres]
    exact bad_exit_no_load c w modname modtype args s s2 s4 mod mod2 _ _ e he halloc
      (depsInv_trans dinv1 dinv2)

/-- C7: the instance returned by a successful `iconv_mod_load` has `im_depcnt`
equal to the number of entries of its `im_deplist`, which holds the static
dependencies and those attached by the dynamic-dependency callback. -/
theorem load_depcnt (c : Consts) (w : World) (fuel : Nat) (modname : List Char)
    (modtype : Int) (args : Ptr) (s : State) (mod : iconv_module) (s1 : State)
    (h : iconv_mod_load c w fuel modname modtype args s = (some (.ok mod), s1)) :
    mod.im_depcnt = mod.im_deplist.length := by
  cases fuel with
  | zero => simp [iconv_mod_load] at h
  | succ fuel =>
    simp only [iconv_mod_load] at h
    rcases ha : load_alloc c w modname modtype args s with ⟨r1, s2⟩
    rw [ha] at h
    cases r1 with
    | none => simp at h
    | some r1 =>
      cases r1 with
      | error e => simp at h
      | ok mod0 =>
        simp only at h
        obtain ⟨buffer, -, haddr, hdl, hcnt, -, -, -, hs2⟩ :=
          load_alloc_ok_eq c w modname modtype args s mod0 s2 ha
        obtain ⟨evs, inv⟩ := load_instance_inv c w _ (iconv_mod_load_ok c w fuel) mod0 s2 _ s1
          hdl (by rw [haddr, hs2]) h
        rw [inv.depcnt mod rfl, hcnt, Nat.zero_add]

/-- Lines 136-165 of `iconv_mod_load` on a fresh instance only add events to
the trace, whether they return or not. -/
theorem load_instance_trace (c : Consts) (w : World) (loader : Loader) (hl : LoaderOk loader)
    (mod : iconv_module) (s : State) (hdl : mod.im_deplist = []) (haddr : mod.addr = s.brk) :
    ∃ evs, (load_instance c w loader mod s).2.trace = s.trace ++ evs := by
  rcases hr : load_instance c w loader mod s with ⟨r, s1⟩
  cases r with
  | none =>
    obtain ⟨evs, inv⟩ := load_instance_cut c w loader hl mod s s1 hr
    exact ⟨evs, inv.trace_eq⟩
  | some res =>
    obtain ⟨evs, inv⟩ := load_instance_inv c w loader hl mod s res s1 hdl haddr hr
    exact ⟨evs, inv.trace_eq⟩

/-- C3: for a module file that resolves (to `buffer`) and opens (handle
`handle`, descriptor `mdesc`): with the requested type `ICMOD_ANY` lines
118-135 never leave through the type check (they either allocate the instance
or fail with `ENOMEM`, so that `malloc` is the call that follows `dlopen` in
the trace of `iconv_mod_load`); with a requested type other than `ICMOD_ANY`
and different from `imd_type`, `iconv_mod_load` returns `EFTYPE` after exactly
two calls, the `dlopen` and the `dlclose` of the handle: nothing is allocated,
no dependency is loaded and no callback runs. -/
theorem load_type_check (c : Consts) (w : World) (fuel : Nat) (modname : List Char)
    (modtype : Int) (args : Ptr) (s : State) (buffer : List Char) (handle : Ptr)
    (mdesc : iconv_module_desc)
    (hpath : iconv_getpath c (w.env s.trace) [] modname = some (0, buffer))
    (hopen : w.dlopen buffer s.trace = handle) (hh : handle ≠ 0)
    (hsym : w.dlsym handle "iconv_module".toList = some mdesc) :
    (modtype = c.ICMOD_ANY →
      load_alloc c w modname modtype args s =
        (if w.malloc_ok (s.trace ++ [.dlopen buffer handle]) then
          (some (.ok (.mk (s.brk + 1) 0 handle mdesc [] 0 0 args)),
            ⟨s.trace ++ [.dlopen buffer handle, .malloc (s.brk + 1)], s.brk + 1⟩)
        else
          (some (.error ENOMEM),
            ⟨s.trace ++ [.dlopen buffer handle, .malloc 0,
              .dlclose handle (w.dlclose handle (s.trace ++ [.dlopen buffer handle, .malloc 0]))],
             s.brk⟩)) ∧
      ∃ a rest, (iconv_mod_load c w (fuel + 1) modname modtype args s).2.trace =
        s.trace ++ Event.dlopen buffer handle :: Event.malloc a :: rest) ∧
    (modtype ≠ c.ICMOD_ANY → mdesc.imd_type ≠ modtype →
      iconv_mod_load c w (fuel + 1) modname modtype args s =
        (some (.error EFTYPE),
          ⟨s.trace ++ [.dlopen buffer handle,
            .dlclose handle (w.dlclose handle (s.trace ++ [.dlopen buffer handle]))], s.brk⟩)) := by
  have hdl : iconv_dlopen w buffer "iconv_module".toList s =
      (.ok (handle, mdesc), s.emit (.dlopen buffer handle)) := by
    unfold iconv_dlopen
    simp only [hopen, hh, if_false, hsym]
  constructor
  · intro hany
    have halloc : load_alloc c w modname modtype args s =
        (if w.malloc_ok (s.trace ++ [.dlopen buffer handle]) then
          (some (.ok (.mk (s.brk + 1) 0 handle mdesc [] 0 0 args)),
            ⟨s.trace ++ [.dlopen buffer handle, .malloc (s.brk + 1)], s.brk + 1⟩)
        else
          (some (.error ENOMEM),
            ⟨s.trace ++ [.dlopen buffer handle, .malloc 0,
              .dlclose handle (w.dlclose handle (s.trace ++ [.dlopen buffer handle, .malloc 0]))],
             s.brk⟩)) := by
      unfold load_alloc
      rw [hpath]
      simp only [ne_eq, not_true_eq_false, if_false, hdl, hany, false_and, emit_trace]
      cases hm : w.malloc_ok (s.trace ++ [.dlopen buffer handle]) <;>
        simp [dlclose, State.emit]
    refine ⟨halloc, ?_⟩
    simp only [iconv_mod_load, halloc]
    cases hm : w.malloc_ok (s.trace ++ [.dlopen buffer handle]) with
    | false =>
      simp only [Bool.false_eq_true, if_false]
      exact ⟨0, _, rfl⟩
    | true =>
      simp only [if_true]
      obtain ⟨evs, he⟩ := load_instance_trace c w _ (iconv_mod_load_ok c w fuel)
        (.mk (s.brk + 1) 0 handle mdesc [] 0 0 args)
        ⟨s.trace ++ [.dlopen buffer handle, .malloc (s.brk + 1)], s.brk + 1⟩ rfl rfl
      exact ⟨s.brk + 1, evs, he.trans (by simp)⟩
  · intro hne hty
    simp only [iconv_mod_load, load_alloc, hpath, ne_eq, not_true_eq_false, if_false, hdl]
    simp [hne, hty, dlclose, State.emit]

/-! ## The claims on the sample platform -/

/-- Instance of C1: `broken.so` declares the dependencies `utf8`, `bad`,
`latin1`; `utf8` loads, the load callback of `bad` fails with 99.  The load of
`broken` returns 99 and the handles 11 (`utf8.so`), 15 (`bad.so`) and 16
(`broken.so`) are each opened once and closed once. -/
theorem load_dependency_failure_witness :
    (iconv_mod_load sample_consts sample_world 1 "bad".toList 0 0 broken_state_first =
      (some (.error 99), broken_state_second) ∧
     iconv_mod_load sample_consts sample_world 2 "broken".toList 0 0 state0 =
      (some (.error 99), broken_state) ∧
     (opens 11 (new_events state0 broken_state), closes 11 (new_events state0 broken_state),
      opens 15 (new_events state0 broken_state), closes 15 (new_events state0 broken_state),
      opens 16 (new_events state0 broken_state), closes 16 (new_events state0 broken_state)) =
      (1, 1, 1, 1, 1, 1)) ∧
    ∃ s1, (∀ k, iconv_mod_load sample_consts sample_world (1 + 1 + k) "broken".toList 0 0
        state0 = (some (.error 99), s1)) ∧
      s1.trace = state0.trace ++ new_events state0 s1 ∧
      0 < opens broken_fresh.im_handle (new_events state0 s1) ∧
      (∀ h, h ≠ 0 → opens h (new_events state0 s1) = closes h (new_events state0 s1)) :=
  ⟨⟨rfl, rfl, by decide⟩,
   load_dependency_failure sample_consts sample_world 1 "broken".toList 0 0 state0
    broken_state_alloc broken_state_first broken_state_second broken_fresh
    (broken_fresh.attach (inst_utf8 2 73)) [⟨"utf8".toList, 0, 73⟩] ⟨"bad".toList, 0, 74⟩
    [⟨"latin1".toList, 0, 75⟩] 99 rfl rfl rfl rfl⟩

/-- Instance of C2: in the trace of the successful load of `euc` (static
dependencies) and of `tbl` (one static and one dynamic dependency) the load
callbacks of the dependencies at 2 and 3 succeed before the load callback of
the instance at 1 runs; in the trace of the failed load of `broken` the load
callback of the instance at 1 does not occur; the load of `loop`, which
depends on itself, has not returned at depth 2 and no load callback has run. -/
theorem load_child_before_parent_witness :
    (iconv_mod_load sample_consts sample_world 2 "euc".toList 0 0 state0 =
      (some (.ok euc_instance), euc_state) ∧
     iconv_mod_load sample_consts sample_world 2 "tbl".toList 0 0 state0 =
      (some (.ok tbl_instance), tbl_state) ∧
     iconv_mod_load sample_consts sample_world 2 "broken".toList 0 0 state0 =
      (some (.error 99), broken_state) ∧
     iconv_mod_load sample_consts sample_world 2 "loop".toList 0 0 state0 =
      (none, loop_state) ∧
     new_events state0 euc_state =
      [.dlopen (sample_path "euc.so") 13, .malloc 1,
       .dlopen (sample_path "utf8.so") 11, .malloc 2, .mod_dyndeps 2 0, .mod_load 2 [] 0,
       .dlopen (sample_path "latin1.so") 12, .malloc 3, .mod_dyndeps 3 0, .mod_load 3 [] 0,
       .mod_dyndeps 1 0, .mod_load 1 [3, 2] 0]) ∧
    ChildBeforeParent (new_events state0 euc_state) ∧
    ChildBeforeParent (new_events state0 tbl_state) ∧
    ChildBeforeParent (new_events state0 loop_state) ∧
    load_calls broken_fresh.addr (new_events state0 broken_state) = 0 :=
  ⟨⟨rfl, rfl, rfl, rfl, by decide⟩,
   (load_child_before_parent sample_consts sample_world 2 "euc".toList 0 0 state0).2.1,
   (load_child_before_parent sample_consts sample_world 2 "tbl".toList 0 0 state0).2.1,
   (load_child_before_parent sample_consts sample_world 2 "loop".toList 0 0 state0).2.1,
   (load_child_before_parent sample_consts sample_world 2 "broken".toList 0 0
      state0).2.2.2.1 1 broken_fresh broken_state_alloc
      [⟨"utf8".toList, 0, 73⟩] ⟨"bad".toList, 0, 74⟩ [⟨"latin1".toList, 0, 75⟩]
      (broken_fresh.attach (inst_utf8 2 73)) broken_state_first 99 broken_state_second
      rfl rfl rfl rfl rfl⟩

/-- Instance of C3: `utf8.so` declares the type 257.  Requested with the type
256 the load returns `EFTYPE` after `dlopen` and `dlclose`; requested with
`ICMOD_ANY` (0) lines 118-135 produce the fresh instance. -/
theorem load_type_check_witness :
    iconv_mod_load sample_consts sample_world 1 "utf8".toList 256 0 state0 =
      (some (.error EFTYPE),
        ⟨[.dlopen (sample_path "utf8.so") 11, .dlclose 11 0], 0⟩) ∧
    load_alloc sample_consts sample_world "utf8".toList 0 0 state0 =
      (some (.ok (.mk 1 0 11 desc_utf8 [] 0 0 0)),
        ⟨[.dlopen (sample_path "utf8.so") 11, .malloc 1], 1⟩) :=
  ⟨(load_type_check sample_consts sample_world 0 "utf8".toList 256 0 state0
      (sample_path "utf8.so") 11 desc_utf8 rfl rfl (by decide) rfl).2 (by decide) (by decide),
   ((load_type_check sample_consts sample_world 0 "utf8".toList 0 0 state0
      (sample_path "utf8.so") 11 desc_utf8 rfl rfl (by decide) rfl).1 rfl).1⟩

/-- Instance of C7: `tbl.so` declares one static dependency and its
dynamic-dependency callback attaches a second one; the loaded instance has
two entries in `im_deplist` and `im_depcnt` is 2. -/
theorem load_depcnt_witness :
    iconv_mod_load sample_consts sample_world 2 "tbl".toList 0 0 state0 =
      (some (.ok tbl_instance), tbl_state) ∧
    desc_tbl.imd_depend.map List.length = some 1 ∧
    tbl_instance.im_deplist.length = 2 ∧
    tbl_instance.im_depcnt = tbl_instance.im_deplist.length :=
  ⟨rfl, rfl, rfl,
   load_depcnt sample_consts sample_world 2 "tbl".toList 0 0 state0 tbl_instance tbl_state rfl⟩

/-- Instance of C8: unloading the loaded instance of `euc`, whose dependency
`latin1` has an unload callback that reports the error 5, unloads and frees
both dependencies (at 3 and 2) before the instance (at 1) is freed, and
returns 0. -/
theorem unload_parent_result_witness :
    (is_loaded sample_consts euc_instance = true ∧ euc_instance.im_handle ≠ 0 ∧
     iconv_mod_unload sample_consts sample_world (some euc_instance) euc_state =
      (0, ⟨euc_state.trace ++ [.mod_unload 1 0, .mod_unload 3 5, .dlclose 12 0, .free 3,
        .mod_unload 2 0, .dlclose 11 0, .free 2, .dlclose 13 0, .free 1], 3⟩)) ∧
    ∃ r rc devs,
      iconv_mod_unload sample_consts sample_world (some euc_instance) euc_state =
        (if rc ≠ 0 then EINVAL else r,
         ⟨euc_state.trace ++ ([Event.mod_unload euc_instance.addr r] ++ devs ++
            [Event.dlclose euc_instance.im_handle rc, Event.free euc_instance.addr]),
          euc_state.brk⟩) ∧
      (∀ d ∈ euc_instance.im_deplist, Event.free d.addr ∈ devs ∧
        (is_loaded sample_consts d = true → ∃ rd, Event.mod_unload d.addr rd ∈ devs)) ∧
      (r = 0 → rc = 0 →
        (iconv_mod_unload sample_consts sample_world (some euc_instance) euc_state).1 = 0) :=
  ⟨⟨by decide, by decide, by decide⟩,
   unload_parent_result sample_consts sample_world euc_instance euc_state (by decide)
    (by decide)⟩

/-- Instance of C9 on a partially constructed instance: the instance of
`broken.so` with only its first dependency attached and its loaded flag not
set.  Unloading it invokes the unload callback of the dependency (at 2) only,
and closes the handles 11 and 16 once each. -/
theorem unload_releases_tree_witness :
    (iconv_mod_unload sample_consts sample_world
        (some (broken_fresh.attach (inst_utf8 2 73))) broken_state_second =
      (0, broken_state) ∧
     new_events broken_state_second broken_state =
      [.mod_unload 2 0, .dlclose 11 0, .free 2, .dlclose 16 0, .free 1]) ∧
    (∀ h, h ≠ 0 → closes h (new_events broken_state_second
        (iconv_mod_unload sample_consts sample_world
          (some (broken_fresh.attach (inst_utf8 2 73))) broken_state_second).2) =
      (instances (broken_fresh.attach (inst_utf8 2 73))).countP
        (fun n => decide (n.im_handle = h))) ∧
    (∀ a, unload_calls a (new_events broken_state_second
        (iconv_mod_unload sample_consts sample_world
          (some (broken_fresh.attach (inst_utf8 2 73))) broken_state_second).2) =
      (instances (broken_fresh.attach (inst_utf8 2 73))).countP
        (fun n => decide (n.addr = a) && is_loaded sample_consts n)) :=
  ⟨⟨by decide, by decide⟩,
   (unload_releases_tree sample_consts sample_world (broken_fresh.attach (inst_utf8 2 73))
      broken_state_second).2.1,
   (unload_releases_tree sample_consts sample_world (broken_fresh.attach (inst_utf8 2 73))
      broken_state_second).2.2.2.1⟩

/-- Instance of C10: on the instance of `euc` the event 1 (`ICMODEV_LOAD`)
gives 0 and the event 7, which is none of the three, gives `EINVAL`. -/
theorem noevent_result_witness :
    iconv_mod_noevent sample_consts euc_instance 1 = (0, euc_instance) ∧
    iconv_mod_noevent sample_consts euc_instance 7 = (EINVAL, euc_instance) :=
  ⟨(noevent_result sample_consts euc_instance 1).1, (noevent_result sample_consts euc_instance 7).1⟩

/-- The predicate `ChildBeforeParent` rejects a trace in which the load
callback of a parent (at 1, with the dependency at 2) runs before the load
callback of its dependency. -/
theorem childBeforeParent_rejects_parent_first :
    ¬ ChildBeforeParent [.mod_load 1 [2] 0, .mod_load 2 [] 0] := by
  intro h
  obtain ⟨deps1, hm⟩ := h [] 1 [2] 0 [.mod_load 2 [] 0] rfl 2 (by simp)
  cases hm


end IconvModule

